import Mathlib

/-!
Shallow embedding of the meteor-transactions package (the `Transact`
prototype and the `_meteorTransactionsUndo` / `_meteorTransactionsRedo`
server methods) and proofs about the claims on its specification.

Documents of the underlying store are modelled as JSON-like trees;
mongo modifiers, selectors and the transaction records are modelled
structurally; JS closures pushed on the execution stack are deep-embedded
as tagged actions interpreted by an executor, and store-level exceptions
are modelled by a failure oracle consulted once per try/catch block.
-/

/-- A JSON-like document value (the shape of data a mongo document holds). -/
inductive Value where
  | vNull
  | vBool (b : Bool)
  | vInt (n : Int)
  | vStr (s : String)
  | vObj (fields : List (String × Value))
  | vArr (elems : List Value)
deriving Repr

/-- A document: an ordered field map (JS object). -/
abbrev Doc := List (String × Value)

/-- JS truthiness of a value: undefined/null/false/0/empty-string are falsy. -/
def truthy : Value → Bool
  | .vNull => false
  | .vBool b => b
  | .vInt n => n != 0
  | .vStr s => s != ""
  | .vObj _ => true
  | .vArr _ => true

/-- JS truthiness where `none` stands for `undefined`. -/
def truthyO : Option Value → Bool
  | none => false
  | some v => truthy v

/-- JS property access `v[k]`: field lookup on objects, numeric index on
arrays, `undefined` on scalars. -/
def getProp : Value → String → Option Value
  | .vObj fields, k => (fields.find? (fun p => p.1 == k)).map (fun p => p.2)
  | .vArr elems, k =>
    match k.toNat? with
    | some i => elems.get? i
    | none => none
  | _, _ => none

/-- JS `obj[k]` where `obj` itself may be `undefined`. -/
def jsLookup : Option Value → String → Option Value
  | none, _ => none
  | some v, k => getProp v k

/-- JS `key.split('.')` (a non-empty separator): cut the character list at
every dot.  Always returns at least one piece. -/
def splitDotsAux : List Char → List Char → List String
  | [], cur => [String.mk cur.reverse]
  | c :: rest, cur =>
    if c == '.' then String.mk cur.reverse :: splitDotsAux rest []
    else splitDotsAux rest (c :: cur)

def splitDots (s : String) : List String := splitDotsAux s.toList []

theorem splitDotsAux_ne_nil : (l : List Char) → (cur : List Char) →
    splitDotsAux l cur ≠ []
  | [], cur => by simp [splitDotsAux]
  | c :: rest, cur => by
    by_cases h : c == '.'
    · simp [splitDotsAux, h]
    · simp only [splitDotsAux, h, if_neg]
      exact splitDotsAux_ne_nil rest (c :: cur)

theorem splitDots_ne_nil (s : String) : splitDots s ≠ [] :=
  splitDotsAux_ne_nil s.toList []

/-- `Transact.prototype._drillDown`, recursing on the pieces of the
dot-split key.  `pieces.length > 1` walks one step (replacing a falsy
object by `{}` exactly as the source's `obj ? obj[pieces[0]] : {}`),
a single piece reads the property when the object is truthy. -/
def drillDownL : Option Value → List String → Option Value
  | _, [] => none
  | obj, [k] => if truthyO obj then jsLookup obj k else none
  | obj, k :: k2 :: rest =>
    drillDownL (if truthyO obj then jsLookup obj k else some (.vObj [])) (k2 :: rest)

/-- `Transact.prototype._drillDown(obj, key)`: split the dot-delimited key
and walk (the source re-joins and re-splits the tail, which is the same
walk because split pieces contain no dot). -/
def drillDown (obj : Option Value) (key : String) : Option Value :=
  drillDownL obj (splitDots key)

/-- The specification's walk: look the prior value up "by walking the
document through the dotted path", absent (`none`) as soon as a step is
missing. -/
def pathGet : Option Value → List String → Option Value
  | o, [] => o
  | o, k :: rest => pathGet (o.bind (fun v => getProp v k)) rest

theorem pathGet_none : (l : List String) → pathGet none l = none
  | [] => rfl
  | _ :: rest => pathGet_none rest

theorem drillDownL_none_or_empty : (l : List String) → l ≠ [] →
    drillDownL none l = none ∧ drillDownL (some (.vObj [])) l = none
  | [], h => absurd rfl h
  | [k], _ => by simp [drillDownL, truthyO, truthy, jsLookup, getProp]
  | k :: k2 :: rest, _ => by
    have ih := drillDownL_none_or_empty (k2 :: rest) (by simp)
    simp [drillDownL, truthyO, truthy, jsLookup, getProp, ih.1, ih.2]

/-- On falsy non-object scalars, `getProp` is already `none`. -/
theorem jsLookup_falsy_none (o : Option Value) (k : String)
    (h : truthyO o = false) : jsLookup o k = none := by
  match o with
  | none => rfl
  | some v =>
    cases v with
    | vNull => rfl
    | vBool b => rfl
    | vInt n => rfl
    | vStr s =>
      simp [truthyO, truthy] at h
      simp [jsLookup, getProp]
    | vObj fields => simp [truthyO, truthy] at h
    | vArr elems => simp [truthyO, truthy] at h

theorem drillDownL_eq_pathGet : (o : Option Value) → (l : List String) → l ≠ [] →
    drillDownL o l = pathGet o l
  | o, [], h => absurd rfl h
  | o, [k], _ => by
    by_cases ht : truthyO o = true
    · cases o with
      | none => simp [truthyO] at ht
      | some v => simp [drillDownL, ht, pathGet, jsLookup, Option.bind]
    · have ht' : truthyO o = false := by revert ht; cases truthyO o <;> simp
      have hlk := jsLookup_falsy_none o k ht'
      cases o with
      | none => simp [drillDownL, ht', pathGet, Option.bind]
      | some v =>
        simp [drillDownL, ht', pathGet, Option.bind]
        simpa [jsLookup] using hlk.symm
  | o, k :: k2 :: rest, _ => by
    have ih := drillDownL_eq_pathGet (jsLookup o k) (k2 :: rest) (by simp)
    by_cases ht : truthyO o = true
    · cases o with
      | none => simp [truthyO] at ht
      | some v =>
        simp only [drillDownL, ht, if_pos]
        rw [ih]
        simp [pathGet, jsLookup, Option.bind]
    · have ht' : truthyO o = false := by revert ht; cases truthyO o <;> simp
      have hlk := jsLookup_falsy_none o k ht'
      have hempty := (drillDownL_none_or_empty (k2 :: rest) (by simp)).2
      simp only [drillDownL, ht']
      rw [if_neg (by simp [ht'])]
      rw [hempty]
      cases o with
      | none => simp [pathGet, Option.bind, pathGet_none]
      | some v =>
        have : getProp v k = none := by simpa [jsLookup] using hlk
        simp [pathGet, Option.bind, this, pathGet_none]

/-- C10: for every document value (including missing/falsy intermediates)
and every dot-delimited key, `_drillDown` terminates (it is a total
function of this embedding) and returns exactly the value reached by
walking the dotted path, with `none` (the `undefined` sentinel) when any
step is absent; it never throws. -/
theorem C10_drillDown_total_pathGet (obj : Option Value) (key : String) :
    drillDown obj key = pathGet obj (splitDots key) :=
  drillDownL_eq_pathGet obj (splitDots key) (splitDots_ne_nil key)

/-! ## Inverse synthesizer (`Transact.prototype.update`, inverse branch) -/

/-- A stored mongo operation `{command, data}`, its data already in the
key/value-pair form produced by `_packageForStorage`.  The command is
`none` when the JS value would be `undefined`. -/
structure Operation where
  command : Option String
  data : List (String × Value)
deriving Repr

/-- `this._inverseOps`: the fixed inverse-command table set up in the
`Transact` constructor; `none` models the `undefined` of a missing key. -/
def inverseOps (c : String) : Option String :=
  if c == "$set" then some "$set"
  else if c == "$addToSet" then some "$pull"
  else if c == "$unset" then some "$set"
  else if c == "$pull" then some "$addToSet"
  else if c == "$inc" then some "$set"
  else if c == "$push" then some "$set"
  else none

/-- The `_.each(_.keys(updateMap), ...)` loop of the `$inc`/`$unset`/`$set`
branch of the inverse `switch` in `Transact.prototype.update`:
`inverseCommand` is a single shared variable, reassigned to `$unset` as
soon as one key has no prior value, while `formerValues` records each
key's prior value (or `''` when absent). -/
def synthFold (docV : Option Value) :
    List (String × Value) → Option String → List (String × Value) →
    Option String × List (String × Value)
  | [], cmd, acc => (cmd, acc)
  | (k, _) :: rest, cmd, acc =>
    match drillDown docV k with
    | some v => synthFold docV rest cmd (acc ++ [(k, v)])
    | none => synthFold docV rest (some "$unset") (acc ++ [(k, .vStr "")])

/-- The inverse synthesis of `Transact.prototype.update` for one update
command (computing `var inverse = {command:inverseCommand,data:formerValues}`
when no `opt.inverse` override is supplied).  In the source the `switch`'s
`default:` case falls through into the `$inc`/`$unset`/`$set` branch. -/
def synthInverse (existingDoc : Option Doc) (command : String)
    (updateMap : List (String × Value)) : Operation :=
  let ic := inverseOps command
  if ic == some "$pull" || ic == some "$addToSet" then
    { command := ic, data := updateMap }
  else if ic == some "$pullAll" || ic == some "$pushAll" then
    { command := ic, data := [] }
  else
    let r := synthFold (existingDoc.map .vObj) updateMap ic []
    { command := r.1, data := r.2 }

theorem synthFold_spec (docV : Option Value) :
    (m : List (String × Value)) → (cmd : Option String) →
    (acc : List (String × Value)) →
    synthFold docV m cmd acc =
      ((if m.any (fun p => (drillDown docV p.1).isNone) then some "$unset" else cmd),
       acc ++ m.map (fun p => (p.1, (drillDown docV p.1).getD (.vStr ""))))
  | [], cmd, acc => by simp [synthFold]
  | (k, v) :: rest, cmd, acc => by
    cases h : drillDown docV k with
    | some w =>
      simp only [synthFold, h]
      rw [synthFold_spec docV rest cmd (acc ++ [(k, w)])]
      simp only [List.any_cons, List.map_cons, h, Option.isNone_some,
        Bool.false_or, Option.getD_some, List.append_assoc, List.cons_append,
        List.nil_append]
    | none =>
      simp only [synthFold, h]
      rw [synthFold_spec docV rest (some "$unset") (acc ++ [(k, Value.vStr "")])]
      simp [h]

/-- C1 counterexample: update `$set {a:5, b:7}` against prior document
`{a:1}`.  The prior value of field `a` is present, yet the synthesized
inverse command (there is only one, shared by all touched fields) is
`$unset`, not `$set` -- the claim's per-field rule fails for `a`. -/
theorem C1_cx :
    drillDown (some (.vObj [("a", .vInt 1)])) "a" = some (.vInt 1) ∧
    (synthInverse (some [("a", .vInt 1)]) "$set"
        [("a", .vInt 5), ("b", .vInt 7)]).command = some "$unset" ∧
    ¬ (synthInverse (some [("a", .vInt 1)]) "$set"
        [("a", .vInt 5), ("b", .vInt 7)]).command = some "$set" := by
  refine ⟨rfl, rfl, ?_⟩
  rw [show (synthInverse (some [("a", .vInt 1)]) "$set"
      [("a", .vInt 5), ("b", .vInt 7)]).command = some "$unset" from rfl]
  simp

/-- C1 amended: for a `set`/`unset`/`increment` command the synthesizer
walks each touched field's dotted path in the prior document and records
the prior value (or `''` when absent) in the inverse data; the inverse
carries one command for all touched fields: `$set` when every prior value
is present, and `$unset` as soon as any touched field was absent (so a
field whose prior value is absent never receives a `$set` inverse, but a
present field's inverse command degrades to `$unset` when another field
in the same command was absent). -/
theorem C1_inverse_synthesis (doc : Option Doc) (c : String)
    (m : List (String × Value))
    (hc : c = "$set" ∨ c = "$unset" ∨ c = "$inc") :
    (synthInverse doc c m).data =
      m.map (fun p => (p.1, (drillDown (doc.map .vObj) p.1).getD (.vStr ""))) ∧
    (synthInverse doc c m).command =
      (if m.any (fun p => (drillDown (doc.map .vObj) p.1).isNone)
       then some "$unset" else some "$set") := by
  have hred : synthInverse doc c m =
      { command := (synthFold (doc.map .vObj) m (some "$set") []).1,
        data := (synthFold (doc.map .vObj) m (some "$set") []).2 } := by
    rcases hc with h | h | h <;> subst h <;> rfl
  rw [hred, synthFold_spec]
  constructor
  · simp
  · rfl

/-- Witness for C1's amended theorem at a concrete input: prior document
`{a:1}`, command `$set {a:5}`: every field present, so the inverse is
`$set {a:1}`. -/
theorem C1_inverse_synthesis_witness :
    (synthInverse (some [("a", .vInt 1)]) "$set" [("a", .vInt 5)]).data =
        [("a", .vInt 1)] ∧
    (synthInverse (some [("a", .vInt 1)]) "$set" [("a", .vInt 5)]).command =
        some "$set" := by
  have h := C1_inverse_synthesis (some [("a", .vInt 1)]) "$set"
    [("a", .vInt 5)] (Or.inl rfl)
  refine ⟨?_, ?_⟩
  · rw [h.1]; rfl
  · rw [h.2]; rfl

/-! ## Document store model (the external CRUD collaborator of spec §6) -/

mutual
/-- Structural equality of document values (element comparison for
`$addToSet`/`$pull`). -/
def beqValue : Value → Value → Bool
  | .vNull, .vNull => true
  | .vBool a, .vBool b => a == b
  | .vInt a, .vInt b => a == b
  | .vStr a, .vStr b => a == b
  | .vObj a, .vObj b => beqFields a b
  | .vArr a, .vArr b => beqElems a b
  | _, _ => false

def beqFields : List (String × Value) → List (String × Value) → Bool
  | [], [] => true
  | (k, v) :: r, (k2, v2) :: r2 => k == k2 && beqValue v v2 && beqFields r r2
  | _, _ => false

def beqElems : List Value → List Value → Bool
  | [], [] => true
  | v :: r, v2 :: r2 => beqValue v v2 && beqElems r r2
  | _, _ => false
end

def getF (d : Doc) (k : String) : Option Value :=
  (d.find? (fun p => p.1 == k)).map (fun p => p.2)

/-- JS object assignment `d[k] = v` / mongo `$set` of one top-level key. -/
def setField (d : Doc) (k : String) (v : Value) : Doc :=
  if d.any (fun p => p.1 == k) then
    d.map (fun p => if p.1 == k then (k, v) else p)
  else d ++ [(k, v)]

def unsetField (d : Doc) (k : String) : Doc :=
  d.filter (fun p => p.1 != k)

/-- The store: each named collection holds an ordered list of documents. -/
def Store : Type := String → List Doc

def getColl (st : Store) (c : String) : List Doc := st c

def setColl (st : Store) (c : String) (docs : List Doc) : Store :=
  fun x => if x = c then docs else st x

def insertInto (st : Store) (c : String) (d : Doc) : Store :=
  setColl st c (getColl st c ++ [d])

/-- A mongo selector as this package uses them: an `_id` equality,
optionally `deleted:{$exists:false}`, optionally a `transaction_id`
equality. -/
structure Sel where
  _id : String
  noDeleted : Bool := false
  txid : Option String := none
deriving Repr

/-- Whether field `k` of the document holds exactly the string `s`. -/
def fieldIsStr (d : Doc) (k : String) (s : String) : Bool :=
  match getF d k with
  | some (.vStr t) => t == s
  | _ => false

def matchesSel (sel : Sel) (d : Doc) : Bool :=
  fieldIsStr d "_id" sel._id
  && (!sel.noDeleted || (getF d "deleted").isNone)
  && (match sel.txid with
      | none => true
      | some t => fieldIsStr d "transaction_id" t)

def findOneSel (st : Store) (c : String) (sel : Sel) : Option Doc :=
  (getColl st c).find? (matchesSel sel)

/-- mongo `remove(sel)`: removes every matching document. -/
def removeSel (st : Store) (c : String) (sel : Sel) : Store :=
  setColl st c ((getColl st c).filter (fun d => !(matchesSel sel d)))

def updateFirst : List Doc → (Doc → Bool) → (Doc → Doc) → List Doc
  | [], _, _ => []
  | d :: rest, p, f => if p d then f d :: rest else d :: updateFirst rest p f

/-- mongo `update(sel, op)` without `multi`: rewrites the first matching
document. -/
def updateSel (st : Store) (c : String) (sel : Sel) (f : Doc → Doc) : Store :=
  setColl st c (updateFirst (getColl st c) (matchesSel sel) f)

def incField (d : Doc) (k : String) (v : Value) : Doc :=
  match getF d k, v with
  | some (.vInt a), .vInt b => setField d k (.vInt (a + b))
  | none, .vInt b => setField d k (.vInt b)
  | _, _ => d

def addToSetField (d : Doc) (k : String) (v : Value) : Doc :=
  match getF d k with
  | some (.vArr xs) =>
    if xs.any (fun x => beqValue x v) then d
    else setField d k (.vArr (xs ++ [v]))
  | _ => setField d k (.vArr [v])

def pullField (d : Doc) (k : String) (v : Value) : Doc :=
  match getF d k with
  | some (.vArr xs) => setField d k (.vArr (xs.filter (fun x => !(beqValue x v))))
  | _ => d

/-- One mongo update command applied to one top-level key. -/
def applyCmd (c : String) (d : Doc) (k : String) (v : Value) : Doc :=
  if c == "$set" then setField d k v
  else if c == "$unset" then unsetField d k
  else if c == "$inc" then incField d k v
  else if c == "$addToSet" then addToSetField d k v
  else if c == "$pull" then pullField d k v
  else d

/-- Apply a stored operation (`_unpackageForUpdate` plus the mongo update)
to one document. -/
def applyOpDoc (op : Operation) (d : Doc) : Doc :=
  match op.command with
  | some c => op.data.foldl (fun d p => applyCmd c d p.1 p.2) d
  | none => d

/-! ## Persisted transaction records and the item ledger (spec §3) -/

structure InsItem where
  collection : String
  _id : String
  instant : Bool := false
  newDoc : Doc
deriving Repr

structure UpdItem where
  collection : String
  _id : String
  instant : Bool := false
  update : Operation
  inverse : Operation
deriving Repr

structure RemItem where
  collection : String
  _id : String
  instant : Bool := false
  doc : Option Doc
deriving Repr

/-- The `_items` ledger: three ordered sequences, a missing key of the JS
object modelled as the empty list. -/
structure Items where
  inserted : List InsItem := []
  updated : List UpdItem := []
  removed : List RemItem := []
deriving Repr

/-- `_.isEmpty(this._items)`: keys are only ever created by a push, so the
JS object is empty exactly when all three sequences are. -/
def itemsEmpty (it : Items) : Bool :=
  it.inserted.isEmpty && it.updated.isEmpty && it.removed.isEmpty

/-- A document of the `transactions` collection. -/
structure TxRecord where
  id : String
  user_id : Option String
  timestamp : Int
  description : String
  context : List (String × Value) := []
  items : Option Items := none
  undone : Option Int := none
  expired : Bool := false
deriving Repr

/-- The truthiness test `op.command && op.data` on a stored operation: a
JS array is always truthy and a command string is truthy iff non-empty. -/
def opPresent (op : Operation) : Bool :=
  match op.command with
  | some c => c != ""
  | none => false

/-- The process-wide configuration and the app-supplied collaborators
(`tx.requireUser`, `Meteor.userId()`, `tx.softDelete`,
`tx.checkPermission`, `tx.makeContext`) plus the clock reading
`(new Date).getTime()`. -/
structure Cfg where
  requireUser : Bool := true
  userId : Option String := none
  softDelete : Bool := false
  checkPermission :
    String → String → Option Doc → List (String × List (String × Value)) → Bool :=
    fun _ _ _ _ => true
  makeContext :
    String → String → Option Doc → List (String × List (String × Value)) →
      List (String × Value) :=
    fun _ _ _ _ => []
  now : Int := 0

/-! ## Undo/Redo engine (`_meteorTransactionsUndo` / `_meteorTransactionsRedo`) -/

/-- A queued compensating/replaying action: the deep embedding of the JS
closures pushed on `queuedItems`, interpreted by `applyAction`. -/
inductive QAction where
  | insertA (coll : String) (d : Doc)
  | updateA (coll : String) (id : String) (op : Operation)
  | removeA (coll : String) (sel : Sel)

def applyAction (st : Store) : QAction → Store
  | .insertA c d => insertInto st c d
  | .updateA c i op => updateSel st c { _id := i } (applyOpDoc op)
  | .removeA c sel => removeSel st c sel

def applyActions (st : Store) (l : List QAction) : Store :=
  l.foldl applyAction st

/-- `find(obj.doc._id).count()`: is any document with this `_id` present? -/
def existsId (st : Store) (c : String) (i : String) : Bool :=
  (getColl st c).any (fun d => fieldIsStr d "_id" i)

def docIdStr (d : Doc) : String :=
  match getF d "_id" with
  | some (.vStr s) => s
  | _ => ""

/-- The staleness probe of the undo method's inserted-items loop:
`findOne({_id:obj._id, $and:[{transaction_id:{$exists:true}},
{transaction_id:{$ne:lastTransaction._id}}]})`. -/
def liveTxChanged (st : Store) (c : String) (i : String) (tid : String) : Bool :=
  (getColl st c).any (fun d =>
    fieldIsStr d "_id" i &&
    (match getF d "transaction_id" with
     | some (.vStr t) => t != tid
     | some _ => true
     | none => false))

/-- State accumulated while the undo/redo methods build their queue: the
staleness flag, the queued actions, and whether the transaction record was
stamped `expired:true` (the inserted-items loops do that immediately,
during the build). -/
structure BuildAcc where
  expired : Bool := false
  queue : List QAction := []
  recExpired : Bool := false

/-- Undo, removed items: a hard-deleted document is reinserted unless some
document with its `_id` exists again (staleness); a soft delete queues
clearing the `deleted`/`transaction_id` marks. -/
def undoRemovedStep (st : Store) (tid : String) (acc : BuildAcc)
    (obj : RemItem) : BuildAcc :=
  match obj.doc with
  | some d =>
    if existsId st obj.collection (docIdStr d) then { acc with expired := true }
    else { acc with queue := acc.queue ++ [.insertA obj.collection d] }
  | none =>
    { acc with queue := acc.queue ++
        [.updateA obj.collection obj._id
          { command := some "$unset",
            data := [("deleted", .vInt 1), ("transaction_id", .vStr tid)] }] }

/-- Undo, updated items: queue the stored inverse operation when present. -/
def undoUpdatedStep (acc : BuildAcc) (obj : UpdItem) : BuildAcc :=
  if opPresent obj.inverse then
    { acc with queue := acc.queue ++ [.updateA obj.collection obj._id obj.inverse] }
  else acc

/-- Undo, inserted items: queue a delete scoped to this transaction's id,
then (immediately, still during the build) mark the record expired when
the live document's `transaction_id` has moved on. -/
def undoInsertedStep (st : Store) (tid : String) (acc : BuildAcc)
    (obj : InsItem) : BuildAcc :=
  let acc2 : BuildAcc := { acc with queue := acc.queue ++
      [.removeA obj.collection { _id := obj._id, txid := some tid }] }
  if liveTxChanged st obj.collection obj._id tid then
    { acc2 with expired := true, recExpired := true }
  else acc2

def undoBuild (st : Store) (tid : String) (it : Items) : BuildAcc :=
  let a1 := it.removed.foldl (undoRemovedStep st tid) {}
  let a2 := it.updated.foldl undoUpdatedStep a1
  it.inserted.foldl (undoInsertedStep st tid) a2

/-- Result of one undo/redo attempt: the document store, the transaction
record afterwards (`none` when the auto-clean removed it), and the
method's return value (`none` for the JS `return;` of the user check). -/
structure UndoOut where
  store : Store
  record : Option TxRecord
  expired : Option Bool

/-- `_meteorTransactionsUndo`, applied to the selected transaction
record: build the queue over all items, then either mark expired and
leave the store untouched, or execute every queued action and stamp
`undone`. -/
def txUndo (cfg : Cfg) (tr : TxRecord) (st : Store) : UndoOut :=
  if cfg.requireUser && cfg.userId.isNone then
    { store := st, record := some tr, expired := none }
  else
    match tr.items with
    | none => { store := st, record := none, expired := some false }
    | some it =>
      let b := undoBuild st tr.id it
      if b.expired then
        { store := st,
          record := some { tr with expired := tr.expired || b.recExpired },
          expired := some true }
      else
        { store := applyActions st b.queue,
          record := some { tr with
                           expired := tr.expired || b.recExpired,
                           undone := some cfg.now },
          expired := some false }

/-- Redo, removed items: hard deletes are re-applied unconditionally by
`_id`; soft deletes re-set the `deleted`/`transaction_id` marks. -/
def redoRemovedStep (tid : String) (now : Int) (acc : BuildAcc)
    (obj : RemItem) : BuildAcc :=
  match obj.doc with
  | some _ =>
    { acc with queue := acc.queue ++ [.removeA obj.collection { _id := obj._id }] }
  | none =>
    { acc with queue := acc.queue ++
        [.updateA obj.collection obj._id
          { command := some "$set",
            data := [("deleted", .vInt now), ("transaction_id", .vStr tid)] }] }

/-- Redo, updated items: queue the stored forward operation when present. -/
def redoUpdatedStep (acc : BuildAcc) (obj : UpdItem) : BuildAcc :=
  if opPresent obj.update then
    { acc with queue := acc.queue ++ [.updateA obj.collection obj._id obj.update] }
  else acc

/-- Redo, inserted items: reinsert the recorded payload (stamped with the
transaction id and the original `_id`) when no document with that `_id`
exists; otherwise mark the record expired. -/
def redoInsertedStep (st : Store) (tid : String) (acc : BuildAcc)
    (obj : InsItem) : BuildAcc :=
  if !(existsId st obj.collection obj._id) then
    { acc with queue := acc.queue ++
        [.insertA obj.collection
          (setField (setField obj.newDoc "transaction_id" (.vStr tid))
            "_id" (.vStr obj._id))] }
  else { acc with expired := true, recExpired := true }

def redoBuild (st : Store) (tid : String) (now : Int) (it : Items) : BuildAcc :=
  let a1 := it.removed.foldl (redoRemovedStep tid now) {}
  let a2 := it.updated.foldl redoUpdatedStep a1
  it.inserted.foldl (redoInsertedStep st tid) a2

/-- `_meteorTransactionsRedo`, applied to the selected undone record. -/
def txRedo (cfg : Cfg) (tr : TxRecord) (st : Store) : UndoOut :=
  if cfg.requireUser && cfg.userId.isNone then
    { store := st, record := some tr, expired := none }
  else
    match tr.items with
    | none => { store := st, record := some tr, expired := some false }
    | some it =>
      let b := redoBuild st tr.id cfg.now it
      if b.expired then
        { store := st,
          record := some { tr with expired := tr.expired || b.recExpired },
          expired := some true }
      else
        { store := applyActions st b.queue,
          record := some { tr with
                           expired := tr.expired || b.recExpired,
                           undone := none },
          expired := some false }

theorem getColl_setColl (st : Store) (c : String) (docs : List Doc) :
    getColl (setColl st c docs) c = docs := by
  simp [getColl, setColl]

theorem mem_removeSel (st : Store) (c : String) (sel : Sel) (d : Doc)
    (h : d ∈ getColl (removeSel st c sel) c) :
    matchesSel sel d = false ∧ d ∈ getColl st c := by
  rw [removeSel, getColl_setColl] at h
  have := List.mem_filter.mp h
  refine ⟨?_, this.1⟩
  have h2 := this.2
  simp at h2
  exact h2

/-- C2: the undo of a persisted transaction record builds the full queue
of compensating actions, evaluating the expiry checks over all items, and
(1) if any item is expired it mutates no document and does not stamp
`undone`, returning true; (2) if no item is expired it executes every
queued action and stamps the record `undone`; in particular for an
inserted item, (3) a live document still carrying this transaction's id
is removed, while (4) one whose transaction id has changed marks the
record `expired` and mutates nothing. -/
theorem C2_undo_all_or_nothing (cfg : Cfg) (tr : TxRecord) (st : Store)
    (hu : (cfg.requireUser && cfg.userId.isNone) = false) :
    ((txUndo cfg tr st).expired = some true →
      (txUndo cfg tr st).store = st ∧
      (txUndo cfg tr st).record.map TxRecord.undone = some tr.undone) ∧
    (∀ it, tr.items = some it → (undoBuild st tr.id it).expired = false →
      (txUndo cfg tr st).store = applyActions st (undoBuild st tr.id it).queue ∧
      (txUndo cfg tr st).record.map TxRecord.undone = some (some cfg.now) ∧
      (txUndo cfg tr st).expired = some false) ∧
    (∀ obj : InsItem, tr.items = some { inserted := [obj] } →
      liveTxChanged st obj.collection obj._id tr.id = false →
      (txUndo cfg tr st).expired = some false ∧
      ∀ d, d ∈ getColl (txUndo cfg tr st).store obj.collection →
        ¬(fieldIsStr d "_id" obj._id = true ∧
          fieldIsStr d "transaction_id" tr.id = true)) ∧
    (∀ obj : InsItem, tr.items = some { inserted := [obj] } →
      liveTxChanged st obj.collection obj._id tr.id = true →
      (txUndo cfg tr st).expired = some true ∧
      (txUndo cfg tr st).store = st ∧
      (txUndo cfg tr st).record.map TxRecord.expired = some true) := by
  refine ⟨?_, ?_, ?_, ?_⟩
  · intro hexp
    cases htr : tr.items with
    | none => simp [txUndo, hu, htr] at hexp
    | some it =>
      cases hb : (undoBuild st tr.id it).expired with
      | false => simp [txUndo, hu, htr, hb] at hexp
      | true => simp [txUndo, hu, htr, hb]
  · intro it htr hb
    simp [txUndo, hu, htr, hb]
  · intro obj htr hch
    have hb : undoBuild st tr.id { inserted := [obj] } =
        { expired := false,
          queue := [.removeA obj.collection { _id := obj._id, txid := some tr.id }],
          recExpired := false } := by
      simp [undoBuild, undoInsertedStep, hch]
    constructor
    · simp [txUndo, hu, htr, hb]
    · intro d hd
      rw [show (txUndo cfg tr st).store =
          removeSel st obj.collection { _id := obj._id, txid := some tr.id } by
        simp [txUndo, hu, htr, hb, applyActions, applyAction]] at hd
      have := (mem_removeSel _ _ _ _ hd).1
      intro hand
      rw [matchesSel] at this
      simp [hand.1, hand.2] at this
  · intro obj htr hch
    have hb : undoBuild st tr.id { inserted := [obj] } =
        { expired := true,
          queue := [.removeA obj.collection { _id := obj._id, txid := some tr.id }],
          recExpired := true } := by
      simp [undoBuild, undoInsertedStep, hch]
    refine ⟨?_, ?_, ?_⟩ <;> simp [txUndo, hu, htr, hb]

/-- Concrete inputs for the C2 witness: a transaction that inserted one
document into `posts`, whose live document still carries the
transaction's id. -/
def c2item : InsItem :=
  { collection := "posts", _id := "a", newDoc := [("title", Value.vStr "x")] }

def c2tr : TxRecord :=
  { id := "t1", user_id := some "u", timestamp := 0, description := "d",
    items := some { inserted := [c2item] } }

def c2store : Store :=
  fun c => if c = "posts"
    then [[("_id", Value.vStr "a"), ("transaction_id", Value.vStr "t1")]]
    else []

def c2cfg : Cfg := { requireUser := true, userId := some "u" }

/-- Witness for C2's theorem: one inserted item whose live document still
carries the transaction's id: the undo does not expire and the document
is gone afterwards. -/
theorem C2_undo_all_or_nothing_witness :
    (txUndo c2cfg c2tr c2store).expired = some false ∧
    getColl (txUndo c2cfg c2tr c2store).store "posts" = [] := by
  have h := C2_undo_all_or_nothing c2cfg c2tr c2store rfl
  have h3 := h.2.2.1 c2item rfl rfl
  refine ⟨h3.1, ?_⟩
  simp [txUndo, c2cfg, c2tr, c2store, c2item, undoBuild, undoInsertedStep,
    liveTxChanged, getColl, applyActions, applyAction, removeSel, setColl,
    matchesSel, fieldIsStr, getF]

theorem redoRemovedFold_flags (tid : String) (now : Int) :
    (l : List RemItem) → (acc : BuildAcc) →
    (l.foldl (redoRemovedStep tid now) acc).expired = acc.expired ∧
    (l.foldl (redoRemovedStep tid now) acc).recExpired = acc.recExpired
  | [], acc => ⟨rfl, rfl⟩
  | obj :: rest, acc => by
    have hstep : (redoRemovedStep tid now acc obj).expired = acc.expired ∧
        (redoRemovedStep tid now acc obj).recExpired = acc.recExpired := by
      cases h : obj.doc <;> simp [redoRemovedStep, h]
    have ih := redoRemovedFold_flags tid now rest (redoRemovedStep tid now acc obj)
    rw [List.foldl_cons]
    exact ⟨ih.1.trans hstep.1, ih.2.trans hstep.2⟩

theorem redoUpdatedFold_flags :
    (l : List UpdItem) → (acc : BuildAcc) →
    (l.foldl redoUpdatedStep acc).expired = acc.expired ∧
    (l.foldl redoUpdatedStep acc).recExpired = acc.recExpired
  | [], acc => ⟨rfl, rfl⟩
  | obj :: rest, acc => by
    have hstep : (redoUpdatedStep acc obj).expired = acc.expired ∧
        (redoUpdatedStep acc obj).recExpired = acc.recExpired := by
      by_cases h : opPresent obj.update <;> simp [redoUpdatedStep, h]
    have ih := redoUpdatedFold_flags rest (redoUpdatedStep acc obj)
    rw [List.foldl_cons]
    exact ⟨ih.1.trans hstep.1, ih.2.trans hstep.2⟩

theorem redoInsertedFold_flags (st : Store) (tid : String) :
    (l : List InsItem) → (acc : BuildAcc) → acc.expired = acc.recExpired →
    (l.foldl (redoInsertedStep st tid) acc).expired =
      (l.foldl (redoInsertedStep st tid) acc).recExpired
  | [], _, h => h
  | obj :: rest, acc, h => by
    rw [List.foldl_cons]
    refine redoInsertedFold_flags st tid rest _ ?_
    by_cases he : existsId st obj.collection obj._id = true <;>
      simp [redoInsertedStep, he, h]

/-- In a redo attempt the staleness flag is set exactly when the record
was stamped expired (only the inserted-items loop raises either). -/
theorem redoBuild_flags (st : Store) (tid : String) (now : Int) (it : Items) :
    (redoBuild st tid now it).expired = (redoBuild st tid now it).recExpired := by
  unfold redoBuild
  refine redoInsertedFold_flags st tid it.inserted _ ?_
  have h1 := redoRemovedFold_flags tid now it.removed {}
  have h2 := redoUpdatedFold_flags it.updated (it.removed.foldl (redoRemovedStep tid now) {})
  rw [h2.1, h2.2, h1.1, h1.2]

/-- C3: the redo of an undone transaction record treats each inserted item
by reinserting the recorded payload (stamped with the transaction id and
original `_id`) when no document with that id exists, and marking the
record expired when one does; an expired attempt aborts without applying
any queued action, and a non-expired attempt applies every queued action
and clears the `undone` marker, returning whether the attempt expired. -/
theorem C3_redo_inserted (cfg : Cfg) (tr : TxRecord) (st : Store)
    (hu : (cfg.requireUser && cfg.userId.isNone) = false) :
    (∀ acc obj, existsId st obj.collection obj._id = false →
      redoInsertedStep st tr.id acc obj =
        { acc with queue := acc.queue ++
            [.insertA obj.collection
              (setField (setField obj.newDoc "transaction_id" (.vStr tr.id))
                "_id" (.vStr obj._id))] }) ∧
    (∀ acc obj, existsId st obj.collection obj._id = true →
      redoInsertedStep st tr.id acc obj =
        { acc with expired := true, recExpired := true }) ∧
    ((txRedo cfg tr st).expired = some true →
      (txRedo cfg tr st).store = st ∧
      (txRedo cfg tr st).record.map TxRecord.expired = some true) ∧
    (∀ it, tr.items = some it → (redoBuild st tr.id cfg.now it).expired = false →
      (txRedo cfg tr st).store =
        applyActions st (redoBuild st tr.id cfg.now it).queue ∧
      (txRedo cfg tr st).record.map TxRecord.undone = some none ∧
      (txRedo cfg tr st).expired = some false) := by
  refine ⟨?_, ?_, ?_, ?_⟩
  · intro acc obj he
    simp [redoInsertedStep, he]
  · intro acc obj he
    simp [redoInsertedStep, he]
  · intro hexp
    cases htr : tr.items with
    | none => simp [txRedo, hu, htr] at hexp
    | some it =>
      cases hb : (redoBuild st tr.id cfg.now it).expired with
      | false => simp [txRedo, hu, htr, hb] at hexp
      | true =>
        have hrec : (redoBuild st tr.id cfg.now it).recExpired = true :=
          (redoBuild_flags st tr.id cfg.now it).symm.trans hb
        simp [txRedo, hu, htr, hb, hrec]
  · intro it htr hb
    simp [txRedo, hu, htr, hb]

/-- Concrete inputs for the C3 witness: an undone transaction that had
inserted one document, with the store no longer containing it. -/
def c3tr : TxRecord :=
  { id := "t1", user_id := some "u", timestamp := 0, description := "d",
    items := some { inserted := [c2item] }, undone := some 5 }

def c3store : Store := fun _ => []

/-- Witness for C3's theorem: redo of that record reinserts the payload
(with `transaction_id` and `_id` stamped), clears `undone`, and does not
expire. -/
theorem C3_redo_inserted_witness :
    (txRedo c2cfg c3tr c3store).expired = some false ∧
    (txRedo c2cfg c3tr c3store).record.map TxRecord.undone = some none ∧
    getColl (txRedo c2cfg c3tr c3store).store "posts" =
      [[("title", Value.vStr "x"), ("transaction_id", Value.vStr "t1"),
        ("_id", Value.vStr "a")]] := by
  have h := C3_redo_inserted c2cfg c3tr c3store rfl
  have h4 := h.2.2.2 { inserted := [c2item] } rfl (by
    simp [redoBuild, redoInsertedStep, existsId, c3store, c2item, getColl])
  refine ⟨h4.2.2, h4.2.1, ?_⟩
  rw [show getColl (txRedo c2cfg c3tr c3store).store "posts" =
      getColl (applyActions c3store
        (redoBuild c3store c3tr.id c2cfg.now { inserted := [c2item] }).queue)
        "posts" from congrArg (fun s => getColl s "posts") h4.1]
  simp [redoBuild, redoInsertedStep, existsId, c3store, c3tr, c2cfg, c2item,
    getColl, applyActions, applyAction, insertInto, setColl, setField]

/-! ## Transaction lifecycle: in-flight state, execution stack,
start / insert / update / remove / cancel / commit / rollback -/

abbrev Modifier := List (String × List (String × Value))

/-- Per-call options object: the fields this package reads (`tx`
unwrapping and callback extraction are argument plumbing, not modelled). -/
structure Opts where
  instant : Bool := false
  overridePermissionCheck : Bool := false
  softDelete : Option Bool := none
  context : Option (List (String × Value)) := none
  inverse : Option Operation := none

/-- A deferred write thunk of `this._executionStack`, deep-embedded as a
tagged command interpreted by `runThunk`.  Because the loop variables of
`update` are `var`-scoped, every update thunk pushed by one `update(...)`
call captures the final iteration's `updateData`/`inverse`; the embedding
stores those captured values in the tag. -/
inductive StackAction where
  | sInsert (coll : String) (newDoc : Doc) (opt : Opts)
  | sRemove (coll : String) (id : String) (sel : Sel) (opt : Opts)
  | sUpdate (coll : String) (id : String) (updates : Modifier)
      (updateData : Operation) (inverse : Operation) (opt : Opts)

/-- The in-flight transaction state owned by the `Transact` instance
(`_lastTransactionData`, `_granted` and the idle timer are not modelled:
the first two are write-only diagnostics here, the timer is the external
`Meteor.setTimeout`). -/
structure TxState where
  transaction_id : Option String := none
  autoTransaction : Bool := false
  executionStack : List StackAction := []
  items : Items := {}
  startAttempts : Int := 0
  rollback : Bool := false
  rollbackReason : String := ""
  context : List (String × Value) := []

/-- `Transact.prototype._cleanReset`. -/
def cleanResetState : TxState := {}

/-- The world outside the in-flight state: the document store, the
`transactions` collection, the fresh-id supply, and the count of
store-write try blocks attempted so far (the index the failure oracle is
consulted at -- one slot per `try { ... } catch` block / drained thunk). -/
structure World where
  store : Store
  txrecs : List TxRecord := []
  gen : Nat := 0
  opCtr : Nat := 0

/-- `this._items[type].push(item)` for an inserted item. -/
def pushInserted (s : TxState) (coll : String) (i : String) (newDoc : Doc)
    (instant : Bool) : TxState :=
  { s with items := { s.items with inserted := s.items.inserted ++
      [{ collection := coll, _id := i, instant := instant, newDoc := newDoc }] } }

def pushUpdated (s : TxState) (coll : String) (i : String)
    (update inverse : Operation) (instant : Bool) : TxState :=
  { s with items := { s.items with updated := s.items.updated ++
      [{ collection := coll, _id := i, instant := instant,
         update := update, inverse := inverse }] } }

def pushRemoved (s : TxState) (coll : String) (i : String) (doc : Option Doc)
    (instant : Bool) : TxState :=
  { s with items := { s.items with removed := s.items.removed ++
      [{ collection := coll, _id := i, instant := instant, doc := doc }] } }

/-- `_.extend(this._context, context)`: merge, last write wins per key. -/
def extendCtx (ctx add : List (String × Value)) : List (String × Value) :=
  add.foldl (fun c p => setField c p.1 p.2) ctx

/-- A JS return value of the public API calls. -/
inductive JsRet where
  | undef
  | bool (b : Bool)
  | str (s : String)
deriving Repr, DecidableEq

def freshTxId (gen : Nat) : String := "tx" ++ toString gen

/-- `Transact.prototype.start`: resets on a failing user check, inserts a
fresh (item-less) record into the `transactions` collection and opens when
idle, counts a start attempt when already open. -/
def txStart (cfg : Cfg) (s : TxState) (w : World) (desc : String) :
    TxState × World × JsRet :=
  if cfg.requireUser && cfg.userId.isNone then
    (cleanResetState, w, .undef)
  else
    match s.transaction_id with
    | none =>
      let tid := freshTxId w.gen
      ({ s with transaction_id := some tid },
       { w with gen := w.gen + 1,
                txrecs := w.txrecs ++
                  [{ id := tid, user_id := cfg.userId, timestamp := cfg.now,
                     description := desc }] },
       .str tid)
    | some _ =>
      ({ s with startAttempts := s.startAttempts + 1 }, w, .bool false)

/-- One `try { <one store write> } catch (err) { ...; error = true }`
block of `rollback`: the oracle decides whether the write throws; a
throwing write is modelled as having no effect. -/
def tryWrite (fails : Nat → Bool) (w : World) (f : Store → Store)
    (err : Bool) : World × Bool :=
  if fails w.opCtr then
    ({ w with opCtr := w.opCtr + 1 }, true)
  else
    ({ w with store := f w.store, opCtr := w.opCtr + 1 }, err)

/-- Rollback of one removed item (only `instant` ones): reinsert the
snapshot, or clear the soft-delete marks. -/
def rollbackRemovedStep (fails : Nat → Bool) (tidO : Option String)
    (acc : World × Bool) (obj : RemItem) : World × Bool :=
  if obj.instant then
    match obj.doc with
    | some d => tryWrite fails acc.1 (fun st => insertInto st obj.collection d) acc.2
    | none => tryWrite fails acc.1 (fun st =>
        updateSel st obj.collection { _id := obj._id } (applyOpDoc
          { command := some "$unset",
            data := [("deleted", .vInt 1),
                     ("transaction_id", .vStr (tidO.getD ""))] })) acc.2
  else acc

/-- Rollback of one updated item (only `instant` ones with a usable
stored inverse): apply the inverse operation. -/
def rollbackUpdatedStep (fails : Nat → Bool) (acc : World × Bool)
    (obj : UpdItem) : World × Bool :=
  if obj.instant && opPresent obj.inverse then
    tryWrite fails acc.1 (fun st =>
      updateSel st obj.collection { _id := obj._id } (applyOpDoc obj.inverse)) acc.2
  else acc

/-- Rollback of one inserted item (only `instant` ones): delete it under a
selector that also requires the document's `transaction_id` to still be
this transaction's id. -/
def rollbackInsertedStep (fails : Nat → Bool) (tidO : Option String)
    (acc : World × Bool) (obj : InsItem) : World × Bool :=
  if obj.instant then
    tryWrite fails acc.1 (fun st =>
      removeSel st obj.collection { _id := obj._id, txid := tidO }) acc.2
  else acc

/-- `Transact.prototype.rollback`: undo every instant item best-effort
(failures are flagged but do not stop the loops), then delete the
transaction record and `_cleanReset`.  Returns the error flag. -/
def txRollback (fails : Nat → Bool) (s : TxState) (w : World) :
    TxState × World × Bool :=
  let r1 := s.items.removed.foldl (rollbackRemovedStep fails s.transaction_id) (w, false)
  let r2 := s.items.updated.foldl (rollbackUpdatedStep fails) r1
  let r3 := s.items.inserted.foldl (rollbackInsertedStep fails s.transaction_id) r2
  let w4 := { r3.1 with txrecs :=
      match s.transaction_id with
      | some tid => r3.1.txrecs.filter (fun r => r.id != tid)
      | none => r3.1.txrecs }
  (cleanResetState, w4, r3.2)

/-- `collection.insert(newDoc)`: use the document's `_id` when it has one,
else draw a fresh id; returns the new id. -/
def insertDocOp (st : Store) (gen : Nat) (c : String) (d : Doc) :
    Store × Nat × String :=
  match getF d "_id" with
  | some (.vStr i) => (insertInto st c d, gen, i)
  | _ =>
    let i := "id" ++ toString gen
    (insertInto st c (d ++ [("_id", .vStr i)]), gen + 1, i)

/-- `makeUpdate`'s stamping of `transaction_id` into `updates["$set"]`. -/
def extendSetTx (m : Modifier) (tid : String) : Modifier :=
  if m.any (fun p => p.1 == "$set") then
    m.map (fun p =>
      if p.1 == "$set" then ("$set", setField p.2 "transaction_id" (.vStr tid))
      else p)
  else m ++ [("$set", [("transaction_id", .vStr tid)])]

/-- Apply a whole mongo modifier (every command, every key). -/
def applyModifier (m : Modifier) (d : Doc) : Doc :=
  m.foldl (fun d p => p.2.foldl (fun d q => applyCmd p.1 d q.1 q.2) d) d

/-- Inner `doRemove` of `Transact.prototype.remove`: soft delete marks the
document (recording a doc-less removed item), hard delete snapshots the
document into the item and removes it. -/
def doRemoveF (cfg : Cfg) (tid : String) (coll : String) (i : String)
    (sel : Sel) (opt : Opts) (instant : Bool) (w : World) (s : TxState) :
    World × TxState :=
  if opt.softDelete.getD cfg.softDelete then
    ({ w with store := updateSel w.store coll sel (applyOpDoc
        { command := some "$set",
          data := [("deleted", .vInt cfg.now), ("transaction_id", .vStr tid)] }) },
     pushRemoved s coll i none instant)
  else
    ({ w with store := removeSel w.store coll sel },
     pushRemoved s coll i (findOneSel w.store coll sel) instant)

/-- Inner `makeUpdate` of `Transact.prototype.update`: apply the whole
modifier (with `transaction_id` stamped into its `$set`) to the document
and record the updated item. -/
def makeUpdateF (tid : String) (coll : String) (i : String) (updates : Modifier)
    (updateData inverse : Operation) (instant : Bool) (w : World) (s : TxState) :
    World × TxState :=
  ({ w with store := updateSel w.store coll { _id := i } (applyModifier (extendSetTx updates tid)) },
   pushUpdated s coll i updateData inverse instant)

/-- Execute one queued thunk (`this._executionStack.shift().call()`);
returns the possibly-new id (a string only for insert thunks). -/
def runThunk (cfg : Cfg) (tid : String) (a : StackAction) (w : World)
    (s : TxState) : World × TxState × Option String :=
  match a with
  | .sInsert coll newDoc _ =>
    let nd := setField newDoc "transaction_id" (.vStr tid)
    let r := insertDocOp w.store w.gen coll nd
    ({ w with store := r.1, gen := r.2.1 },
     pushInserted s coll r.2.2 nd false, some r.2.2)
  | .sRemove coll i sel opt =>
    let r := doRemoveF cfg tid coll i sel opt false w s
    (r.1, r.2, none)
  | .sUpdate coll i updates updateData inverse _ =>
    let r := makeUpdateF tid coll i updates updateData inverse false w s
    (r.1, r.2, none)

/-- Drain the execution stack FIFO inside commit's `try`: each thunk may
throw (one oracle slot per thunk, a throwing thunk modelled as having no
effect), aborting the drain with the remaining thunks; string results are
collected as new document ids. -/
def drainStack (cfg : Cfg) (fails : Nat → Bool) (tid : String) :
    List StackAction → World → TxState → List String →
    Bool × World × TxState × List String × List StackAction
  | [], w, s, ids => (false, w, s, ids, [])
  | a :: rest, w, s, ids =>
    if fails w.opCtr then
      (true, { w with opCtr := w.opCtr + 1 }, s, ids, rest)
    else
      let r := runThunk cfg tid a { w with opCtr := w.opCtr + 1 } s
      drainStack cfg fails tid rest r.1 r.2.1
        (ids ++ (match r.2.2 with | some i => [i] | none => []))

/-- The value handed to the commit callback as its result. -/
inductive ResVal where
  | rFalse
  | rTrue
  | rId (i : String)
  | rIds (l : List String)
  | rNone
deriving Repr, DecidableEq

/-- The first argument of `commit`: `undefined`, a transaction-id string,
`null` (force), an options object (from `_closeAutoTransaction`), or a
callback function. -/
inductive TxIdArg where
  | noArg
  | strArg (t : String)
  | nullArg
  | objArg
  | funArg
deriving Repr, DecidableEq

/-- `!_.isFunction(txid) && typeof txid !== 'undefined' &&
txid !== this._transaction_id && _.isString(txid)`. -/
def isStray (a : TxIdArg) (tid : String) : Bool :=
  match a with
  | .strArg t => t != tid
  | _ => false

/-- `!_.isFunction(txid) && typeof txid !== 'undefined' &&
(txid === this._transaction_id || txid === null)`. -/
def matchesOrNull (a : TxIdArg) (tid : String) : Bool :=
  match a with
  | .strArg t => t == tid
  | .nullArg => true
  | _ => false

/-- The outcome of one `commit` call: the reset (or surviving) in-flight
state, the world, what the callback received (`err` as the `Meteor.Error`
code, `none` when no error; `res`), and the JS return value. -/
structure CommitOut where
  s : TxState
  w : World
  err : Option String
  res : ResVal
  ret : JsRet

/-- `Transact.prototype.commit`.  `newIdParam` is the third parameter
(forwarded by `_closeAutoTransaction` after an instant insert). -/
def txCommit (cfg : Cfg) (fails : Nat → Bool) (s : TxState) (w : World)
    (txid : TxIdArg) (newIdParam : Option ResVal) : CommitOut :=
  if cfg.requireUser && cfg.userId.isNone then
    { s := s, w := w, err := none, res := .rNone, ret := .undef }
  else
    match s.transaction_id with
    | none =>
      { s := cleanResetState, w := w, err := some "no-transactions-open",
        res := .rFalse, ret := .undef }
    | some tid =>
      if isStray txid tid then
        { s := { s with startAttempts := s.startAttempts - 1 }, w := w,
          err := some "multiple-transactions-open", res := .rFalse, ret := .undef }
      else if s.startAttempts > 0 && !(matchesOrNull txid tid) then
        { s := { s with startAttempts := s.startAttempts - 1 }, w := w,
          err := some "multiple-transactions-open", res := .rFalse, ret := .undef }
      else if itemsEmpty s.items && s.executionStack.isEmpty then
        { s := cleanResetState,
          w := { w with txrecs := w.txrecs.filter (fun r => r.id != tid) },
          err := none, res := (newIdParam.getD .rTrue), ret := .bool true }
      else if s.rollback then
        let r := txRollback fails s w
        { s := r.1, w := r.2.1, err := some s.rollbackReason,
          res := .rFalse, ret := .undef }
      else
        match drainStack cfg fails tid s.executionStack w s [] with
        | (true, w2, s2, _, rest) =>
          let r := txRollback fails { s2 with executionStack := rest } w2
          { s := r.1, w := r.2.1, err := some "error", res := .rFalse, ret := .undef }
        | (false, w2, s2, ids, _) =>
          let newId : Option ResVal :=
            match ids with
            | [] => newIdParam
            | [i] => some (.rId i)
            | l => some (.rIds l)
          let w3 := { w2 with txrecs := w2.txrecs.map (fun r =>
              if r.id == tid
              then { r with context := s2.context, items := some s2.items }
              else r) }
          { s := cleanResetState, w := w3, err := none,
            res := (newId.getD .rTrue), ret := .bool true }

/-- `Transact.prototype._openAutoTransaction`. -/
def openAutoTransaction (cfg : Cfg) (s : TxState) (w : World) (desc : String) :
    TxState × World :=
  match s.transaction_id with
  | none =>
    let r := txStart cfg { s with autoTransaction := true } w desc
    (r.1, r.2.1)
  | some _ => (s, w)

/-- `Transact.prototype._closeAutoTransaction`: commit when this
transaction was auto-opened.  `commit` receives the options object (or
`undefined`) as its first argument; both behave identically (`objArg`). -/
def closeAutoTransaction (cfg : Cfg) (fails : Nat → Bool) (s : TxState)
    (w : World) (newId : Option ResVal) : TxState × World :=
  if s.autoTransaction then
    let r := txCommit cfg fails s w .objArg newId
    (r.s, r.w)
  else (s, w)

/-- Result of one public insert/update/remove call. -/
structure CallRes where
  s : TxState
  w : World
  ret : JsRet

/-- `Transact.prototype.insert`.  A failing instant insert flags rollback
and falls through to the queueing path (the source `catch` does not
return), and the final `return !this._rollback` reads the state left
after `_closeAutoTransaction`. -/
def txInsert (cfg : Cfg) (fails : Nat → Bool) (s : TxState) (w : World)
    (coll : String) (newDoc : Doc) (opt : Opts) : CallRes :=
  if s.rollback || (cfg.requireUser && cfg.userId.isNone) then
    { s := s, w := w, ret := .undef }
  else if opt.overridePermissionCheck || cfg.checkPermission "insert" coll (some newDoc) [] then
    let r1 := openAutoTransaction cfg s w ("add " ++ coll.dropRight 1)
    let s1 := r1.1
    let w1 := r1.2
    let tid := s1.transaction_id.getD ""
    let ctxAdd := opt.context.getD (cfg.makeContext "insert" coll (some newDoc) [])
    let s2 := { s1 with context := extendCtx s1.context ctxAdd }
    if opt.instant || s2.autoTransaction then
      if fails w1.opCtr then
        let s3 := { s2 with
                    rollback := true, rollbackReason := "insert-error",
                    executionStack := s2.executionStack ++ [.sInsert coll newDoc opt] }
        let w2 := { w1 with opCtr := w1.opCtr + 1 }
        let r2 := closeAutoTransaction cfg fails s3 w2 none
        { s := r2.1, w := r2.2, ret := .bool (!r2.1.rollback) }
      else
        let nd := setField newDoc "transaction_id" (.vStr tid)
        let r := insertDocOp w1.store w1.gen coll nd
        let w2 := { w1 with store := r.1, gen := r.2.1, opCtr := w1.opCtr + 1 }
        let s3 := pushInserted s2 coll r.2.2 nd true
        let r2 := closeAutoTransaction cfg fails s3 w2 (some (.rId r.2.2))
        { s := r2.1, w := r2.2, ret := .str r.2.2 }
    else
      let s3 := { s2 with executionStack := s2.executionStack ++ [.sInsert coll newDoc opt] }
      let r2 := closeAutoTransaction cfg fails s3 w1 none
      { s := r2.1, w := r2.2, ret := .bool (!r2.1.rollback) }
  else
    { s := { s with rollback := true, rollbackReason := "permission-denied" },
      w := w, ret := .undef }

/-- The `doc` argument of remove/update: a full document or a plain id. -/
inductive DocArg where
  | byId (i : String)
  | byDoc (d : Doc)

/-- `Transact.prototype.remove` (server side: the selector also requires
`deleted:{$exists:false}`). -/
def txRemove (cfg : Cfg) (fails : Nat → Bool) (s : TxState) (w : World)
    (coll : String) (docArg : DocArg) (opt : Opts) : CallRes :=
  if s.rollback || (cfg.requireUser && cfg.userId.isNone) then
    { s := s, w := w, ret := .undef }
  else
    let i := match docArg with
             | .byId i => i
             | .byDoc d => docIdStr d
    let existingDoc := match docArg with
                       | .byId i => findOneSel w.store coll { _id := i }
                       | .byDoc d => some d
    if opt.overridePermissionCheck || cfg.checkPermission "remove" coll existingDoc [] then
      let r1 := openAutoTransaction cfg s w ("remove " ++ coll.dropRight 1)
      let s1 := r1.1
      let w1 := r1.2
      let tid := s1.transaction_id.getD ""
      let sel : Sel := { _id := i, noDeleted := true }
      let ctxAdd := opt.context.getD (cfg.makeContext "remove" coll existingDoc [])
      let s2 := { s1 with context := extendCtx s1.context ctxAdd }
      let r2 :=
        if opt.instant then
          if fails w1.opCtr then
            ({ s2 with rollback := true, rollbackReason := "remove-error" },
             { w1 with opCtr := w1.opCtr + 1 })
          else
            let r := doRemoveF cfg tid coll i sel opt true { w1 with opCtr := w1.opCtr + 1 } s2
            (r.2, r.1)
        else
          ({ s2 with executionStack := s2.executionStack ++ [.sRemove coll i sel opt] }, w1)
      let r3 := closeAutoTransaction cfg fails r2.1 r2.2 none
      { s := r3.1, w := r3.2, ret := .bool (!r3.1.rollback) }
    else
      { s := { s with rollback := true, rollbackReason := "permission-denied" },
        w := w, ret := .undef }

/-- The `for` loop of `Transact.prototype.update` over the update commands
of one call: per iteration the inverse is synthesized (unless
`opt.inverse` overrides), the context merged, and the update either
executed instantly inside a try (one oracle slot) or pushed as a thunk.
All pushed thunks capture the `var`-scoped final values
`lastUD`/`lastInv`. -/
def txUpdateLoop (cfg : Cfg) (fails : Nat → Bool) (tid : String) (coll : String)
    (i : String) (existingDoc : Option Doc) (updates : Modifier) (opt : Opts)
    (s : TxState) (w : World) : TxState × World :=
  let lastUD : Operation :=
    match updates.getLast? with
    | some p => { command := some p.1, data := p.2 }
    | none => { command := none, data := [] }
  let lastInv : Operation :=
    match opt.inverse with
    | some inv => inv
    | none =>
      match updates.getLast? with
      | some p => synthInverse existingDoc p.1 p.2
      | none => { command := none, data := [] }
  updates.foldl (fun (acc : TxState × World) p =>
    let s0 := acc.1
    let w0 := acc.2
    let inv := opt.inverse.getD (synthInverse existingDoc p.1 p.2)
    let ud : Operation := { command := some p.1, data := p.2 }
    let ctxAdd := opt.context.getD (cfg.makeContext "update" coll existingDoc updates)
    let s1 := { s0 with context := extendCtx s0.context ctxAdd }
    if opt.instant then
      if fails w0.opCtr then
        ({ s1 with rollback := true, rollbackReason := "update-error" },
         { w0 with opCtr := w0.opCtr + 1 })
      else
        let r := makeUpdateF tid coll i updates ud inv true { w0 with opCtr := w0.opCtr + 1 } s1
        (r.2, r.1)
    else
      ({ s1 with executionStack := s1.executionStack ++
          [.sUpdate coll i updates lastUD lastInv opt] }, w0)) (s, w)

/-- `Transact.prototype.update`. -/
def txUpdate (cfg : Cfg) (fails : Nat → Bool) (s : TxState) (w : World)
    (coll : String) (docArg : DocArg) (updates : Modifier) (opt : Opts) : CallRes :=
  if s.rollback || (cfg.requireUser && cfg.userId.isNone) then
    { s := s, w := w, ret := .undef }
  else
    let i := match docArg with
             | .byId i => i
             | .byDoc d => docIdStr d
    let existingDoc := findOneSel w.store coll { _id := i }
    if opt.overridePermissionCheck || cfg.checkPermission "update" coll existingDoc updates then
      let r1 := openAutoTransaction cfg s w ("update " ++ coll.dropRight 1)
      let s1 := r1.1
      let w1 := r1.2
      let tid := s1.transaction_id.getD ""
      let r2 := txUpdateLoop cfg fails tid coll i existingDoc updates opt s1 w1
      let r3 := closeAutoTransaction cfg fails r2.1 r2.2 none
      { s := r3.1, w := r3.2, ret := .bool (!r3.1.rollback) }
    else
      { s := { s with rollback := true, rollbackReason := "permission-denied" },
        w := w, ret := .undef }

/-- `Transact.prototype.cancel`: flag only, rollback happens lazily at the
next commit. -/
def txCancel (s : TxState) : TxState :=
  { s with rollback := true, rollbackReason := "transaction-cancelled" }

/-! ## C4: rollback of an in-flight transaction -/

/-- The number of try blocks rollback attempts: one per instant removed
item, per instant updated item with a usable inverse, per instant
inserted item. -/
def rollbackAttempts (it : Items) : Nat :=
  (it.removed.filter (fun o => o.instant)).length
  + (it.updated.filter (fun o => o.instant && opPresent o.inverse)).length
  + (it.inserted.filter (fun o => o.instant)).length

/-- Whether the oracle fails on any of the `n` slots starting at `start`. -/
def anyFails (fails : Nat → Bool) (start : Nat) : Nat → Bool
  | 0 => false
  | n + 1 => fails start || anyFails fails (start + 1) n

theorem anyFails_add (fails : Nat → Bool) :
    (a : Nat) → (start b : Nat) →
    anyFails fails start (a + b) =
      (anyFails fails start a || anyFails fails (start + a) b)
  | 0, start, b => by simp [anyFails]
  | a + 1, start, b => by
    have ih := anyFails_add fails a (start + 1) b
    have h1 : start + 1 + a = start + (a + 1) := by omega
    have h2 : a + 1 + b = (a + b) + 1 := by omega
    rw [h2]
    show (fails start || anyFails fails (start + 1) (a + b)) = _
    rw [ih, h1]
    simp [anyFails, Bool.or_assoc]

theorem tryWrite_opCtr (fails : Nat → Bool) (w : World) (f : Store → Store)
    (e : Bool) : (tryWrite fails w f e).1.opCtr = w.opCtr + 1 := by
  unfold tryWrite
  split <;> rfl

theorem tryWrite_err (fails : Nat → Bool) (w : World) (f : Store → Store)
    (e : Bool) : (tryWrite fails w f e).2 = (e || fails w.opCtr) := by
  unfold tryWrite
  split <;> simp_all

/-- Each rollback loop is a fold of steps of the common shape
`if cond obj then tryWrite ... else acc`: such a fold attempts exactly the
`cond`-selected items (regardless of failures) and raises the error flag
exactly when one attempted write failed. -/
theorem stepFold_ctr {α : Type} (fails : Nat → Bool) (cond : α → Bool)
    (f : α → Store → Store) (step : World × Bool → α → World × Bool)
    (hstep : ∀ acc obj, step acc obj =
      if cond obj then tryWrite fails acc.1 (f obj) acc.2 else acc) :
    (l : List α) → (acc : World × Bool) →
    (l.foldl step acc).1.opCtr = acc.1.opCtr + (l.filter cond).length ∧
    (l.foldl step acc).2 =
      (acc.2 || anyFails fails acc.1.opCtr (l.filter cond).length)
  | [], acc => by simp [anyFails]
  | obj :: rest, acc => by
    rw [List.foldl_cons, hstep]
    cases hc : cond obj
    · have ih := stepFold_ctr fails cond f step hstep rest acc
      simp [List.filter_cons, hc, ih.1, ih.2]
    · have ih := stepFold_ctr fails cond f step hstep rest
        (tryWrite fails acc.1 (f obj) acc.2)
      simp only [if_pos, List.filter_cons, hc, List.length_cons]
      constructor
      · rw [ih.1, tryWrite_opCtr]
        omega
      · rw [ih.2, tryWrite_err, tryWrite_opCtr]
        simp [anyFails, Bool.or_assoc]

theorem rollbackRemovedStep_shape (fails : Nat → Bool) (tidO : Option String)
    (acc : World × Bool) (obj : RemItem) :
    rollbackRemovedStep fails tidO acc obj =
      if obj.instant then
        tryWrite fails acc.1
          (match obj.doc with
           | some d => fun st => insertInto st obj.collection d
           | none => fun st =>
              updateSel st obj.collection { _id := obj._id } (applyOpDoc
                { command := some "$unset",
                  data := [("deleted", .vInt 1),
                           ("transaction_id", .vStr (tidO.getD ""))] })) acc.2
      else acc := by
  cases hd : obj.doc <;> simp [rollbackRemovedStep, hd]

theorem rollbackUpdatedStep_shape (fails : Nat → Bool)
    (acc : World × Bool) (obj : UpdItem) :
    rollbackUpdatedStep fails acc obj =
      if obj.instant && opPresent obj.inverse then
        tryWrite fails acc.1
          (fun st => updateSel st obj.collection { _id := obj._id }
            (applyOpDoc obj.inverse)) acc.2
      else acc := by
  simp [rollbackUpdatedStep]

theorem rollbackInsertedStep_shape (fails : Nat → Bool) (tidO : Option String)
    (acc : World × Bool) (obj : InsItem) :
    rollbackInsertedStep fails tidO acc obj =
      if obj.instant then
        tryWrite fails acc.1
          (fun st => removeSel st obj.collection { _id := obj._id, txid := tidO })
          acc.2
      else acc := by
  simp [rollbackInsertedStep]

theorem mem_getColl_removeSel (st : Store) (c c2 : String) (sel : Sel) (d : Doc)
    (hd : d ∈ getColl st c) (hm : matchesSel sel d = false) :
    d ∈ getColl (removeSel st c2 sel) c := by
  by_cases hc : c = c2
  · subst hc
    rw [removeSel, getColl_setColl]
    exact List.mem_filter.mpr ⟨hd, by simp [hm]⟩
  · have heq : getColl (removeSel st c2 sel) c = getColl st c := by
      unfold removeSel setColl getColl
      simp [hc]
    rw [heq]
    exact hd

theorem matchesSel_txid_false (tid i : String) (nd : Bool) (d : Doc)
    (h : fieldIsStr d "transaction_id" tid = false) :
    matchesSel { _id := i, noDeleted := nd, txid := some tid } d = false := by
  simp [matchesSel, h]

theorem rollbackInsertedFold_mem (fails : Nat → Bool) (tid : String) :
    (l : List InsItem) → (acc : World × Bool) → (c : String) → (d : Doc) →
    d ∈ getColl acc.1.store c → fieldIsStr d "transaction_id" tid = false →
    d ∈ getColl ((l.foldl (rollbackInsertedStep fails (some tid)) acc).1.store) c
  | [], acc, c, d, hd, _ => hd
  | obj :: rest, acc, c, d, hd, hf => by
    rw [List.foldl_cons]
    refine rollbackInsertedFold_mem fails tid rest _ c d ?_ hf
    rw [rollbackInsertedStep_shape]
    cases hi : obj.instant
    · simpa using hd
    · simp only [if_pos]
      unfold tryWrite
      by_cases hfail : fails acc.1.opCtr = true
      · simpa [hfail] using hd
      · simp only [Bool.not_eq_true] at hfail
        simp only [hfail, Bool.false_eq_true, if_neg, ite_false]
        exact mem_getColl_removeSel acc.1.store c obj.collection _ d hd
          (matchesSel_txid_false tid obj._id false d hf)

/-- C4: during rollback every instant inserted item is deleted only under
a selector that also requires the document's `transaction_id` to equal
this transaction's id, so a document since claimed by a later transaction
survives; a failing inverse is flagged but does not stop the processing of
the remaining items (every instant item is attempted regardless of the
failure oracle); afterwards the transaction record is deleted and the
in-flight state is reset. -/
theorem C4_rollback (fails : Nat → Bool) (s : TxState) (w : World) (tid : String)
    (htid : s.transaction_id = some tid) :
    (txRollback fails s w).2.1.opCtr = w.opCtr + rollbackAttempts s.items ∧
    (txRollback fails s w).2.2 = anyFails fails w.opCtr (rollbackAttempts s.items) ∧
    (s.items.removed = [] → s.items.updated = [] →
      ∀ c d, d ∈ getColl w.store c →
        fieldIsStr d "transaction_id" tid = false →
        d ∈ getColl (txRollback fails s w).2.1.store c) ∧
    (txRollback fails s w).1 = cleanResetState ∧
    (∀ r, r ∈ (txRollback fails s w).2.1.txrecs → r.id ≠ tid) := by
  have h1 := stepFold_ctr fails (fun o => o.instant) _ _
    (rollbackRemovedStep_shape fails s.transaction_id) s.items.removed (w, false)
  have h2 := stepFold_ctr fails (fun o => o.instant && opPresent o.inverse) _ _
    (rollbackUpdatedStep_shape fails) s.items.updated
    (s.items.removed.foldl (rollbackRemovedStep fails s.transaction_id) (w, false))
  have h3 := stepFold_ctr fails (fun o => o.instant) _ _
    (rollbackInsertedStep_shape fails s.transaction_id) s.items.inserted
    (s.items.updated.foldl (rollbackUpdatedStep fails)
      (s.items.removed.foldl (rollbackRemovedStep fails s.transaction_id) (w, false)))
  refine ⟨?_, ?_, ?_, rfl, ?_⟩
  · show (s.items.inserted.foldl (rollbackInsertedStep fails s.transaction_id)
      (s.items.updated.foldl (rollbackUpdatedStep fails)
        (s.items.removed.foldl (rollbackRemovedStep fails s.transaction_id)
          (w, false)))).1.opCtr = _
    rw [h3.1, h2.1, h1.1]
    simp [rollbackAttempts, Nat.add_assoc]
  · show (s.items.inserted.foldl (rollbackInsertedStep fails s.transaction_id)
      (s.items.updated.foldl (rollbackUpdatedStep fails)
        (s.items.removed.foldl (rollbackRemovedStep fails s.transaction_id)
          (w, false)))).2 = _
    rw [h3.2, h2.2, h2.1, h1.1, h1.2]
    simp only [Bool.false_or, Bool.or_assoc, rollbackAttempts]
    rw [anyFails_add fails _ w.opCtr, anyFails_add fails _ w.opCtr]
    simp [Nat.add_assoc, Bool.or_assoc]
  · intro hrem hupd c d hd hf
    show d ∈ getColl (s.items.inserted.foldl
      (rollbackInsertedStep fails s.transaction_id)
      (s.items.updated.foldl (rollbackUpdatedStep fails)
        (s.items.removed.foldl (rollbackRemovedStep fails s.transaction_id)
          (w, false)))).1.store c
    rw [hrem, hupd, htid]
    simp only [List.foldl_nil]
    exact rollbackInsertedFold_mem fails tid s.items.inserted (w, false) c d hd hf
  · intro r hr
    have heq : (txRollback fails s w).2.1.txrecs =
        ((s.items.inserted.foldl (rollbackInsertedStep fails s.transaction_id)
          (s.items.updated.foldl (rollbackUpdatedStep fails)
            (s.items.removed.foldl (rollbackRemovedStep fails s.transaction_id)
              (w, false)))).1.txrecs.filter (fun x => x.id != tid)) := by
      simp only [txRollback, htid]
    rw [heq] at hr
    have := (List.mem_filter.mp hr).2
    simpa using this

def c4docA : Doc := [("_id", Value.vStr "a"), ("transaction_id", Value.vStr "t1")]
def c4docB : Doc := [("_id", Value.vStr "b"), ("transaction_id", Value.vStr "t1")]
def c4docC : Doc := [("_id", Value.vStr "c"), ("transaction_id", Value.vStr "t9")]

/-- Concrete inputs for the C4 witness: two instant inserted items; the
store holds their documents plus one claimed by a later transaction; the
oracle makes the first inverse throw. -/
def c4state : TxState :=
  { transaction_id := some "t1",
    items := { inserted :=
      [{ collection := "posts", _id := "a", instant := true, newDoc := [] },
       { collection := "posts", _id := "b", instant := true, newDoc := [] }] } }

def c4w : World :=
  { store := fun c => if c = "posts" then [c4docA, c4docB, c4docC] else [],
    txrecs := [{ id := "t1", user_id := some "u", timestamp := 0,
                 description := "d" }] }

def c4fails : Nat → Bool := fun n => n == 0

/-- Witness for C4: despite the first inverse throwing, both items are
attempted (`opCtr` advanced by two) and the error is flagged; the
in-flight state is reset and the record deleted; the document claimed by
transaction `t9` survives while the second inserted document is removed. -/
theorem C4_rollback_witness :
    (txRollback c4fails c4state c4w).2.1.opCtr = 2 ∧
    (txRollback c4fails c4state c4w).2.2 = true ∧
    (txRollback c4fails c4state c4w).1 = cleanResetState ∧
    (txRollback c4fails c4state c4w).2.1.txrecs = [] ∧
    c4docC ∈ getColl (txRollback c4fails c4state c4w).2.1.store "posts" ∧
    getColl (txRollback c4fails c4state c4w).2.1.store "posts" =
      [c4docA, c4docC] := by
  have h := C4_rollback c4fails c4state c4w "t1" rfl
  refine ⟨?_, ?_, h.2.2.2.1, ?_, ?_, ?_⟩
  · rw [h.1]; rfl
  · rw [h.2.1]; rfl
  · rfl
  · refine h.2.2.1 rfl rfl "posts" c4docC ?_ rfl
    rw [show getColl c4w.store "posts" = [c4docA, c4docB, c4docC] from rfl]
    exact List.mem_cons_of_mem _ (List.mem_cons_of_mem _ (List.mem_cons_self _ _))
  · rfl

/-! ## C6/C7: commit with the rollback flag set; permission denial -/

/-- A fold of steps of the common try-block shape skips every item the
condition rejects. -/
theorem stepFold_skip {α : Type} (fails : Nat → Bool) (cond : α → Bool)
    (f : α → Store → Store) (step : World × Bool → α → World × Bool)
    (hstep : ∀ acc obj, step acc obj =
      if cond obj then tryWrite fails acc.1 (f obj) acc.2 else acc) :
    (l : List α) → (acc : World × Bool) →
    l.all (fun o => !(cond o)) = true → l.foldl step acc = acc
  | [], _, _ => rfl
  | obj :: rest, acc, h => by
    rw [List.all_cons] at h
    have h1 : cond obj = false := by
      cases hc : cond obj
      · rfl
      · rw [hc] at h; simp at h
    have h2 : rest.all (fun o => !(cond o)) = true := by
      cases hr : rest.all (fun o => !(cond o))
      · rw [hr] at h; simp at h
      · rfl
    rw [List.foldl_cons, hstep, h1]
    simp only [Bool.false_eq_true, if_neg]
    exact stepFold_skip fails cond f step hstep rest acc h2

theorem all_not_instant_imp_upd (l : List UpdItem)
    (h : l.all (fun o => !o.instant) = true) :
    l.all (fun o => !(o.instant && opPresent o.inverse)) = true := by
  rw [List.all_eq_true] at h ⊢
  intro o ho
  have := h o ho
  cases hi : o.instant
  · simp
  · rw [hi] at this; simp at this

/-- With no instant item recorded, rollback touches neither the store nor
the attempt counter. -/
theorem txRollback_store_noInstant (fails : Nat → Bool) (s : TxState) (w : World)
    (h1 : s.items.removed.all (fun o => !o.instant) = true)
    (h2 : s.items.updated.all (fun o => !o.instant) = true)
    (h3 : s.items.inserted.all (fun o => !o.instant) = true) :
    (txRollback fails s w).2.1.store = w.store := by
  have e1 := stepFold_skip fails (fun o => o.instant) _ _
    (rollbackRemovedStep_shape fails s.transaction_id) s.items.removed (w, false) h1
  have e2 := stepFold_skip fails (fun o => o.instant && opPresent o.inverse) _ _
    (rollbackUpdatedStep_shape fails) s.items.updated (w, false)
    (all_not_instant_imp_upd s.items.updated h2)
  have e3 := stepFold_skip fails (fun o => o.instant) _ _
    (rollbackInsertedStep_shape fails s.transaction_id) s.items.inserted (w, false) h3
  simp only [txRollback]
  rw [e1, e2, e3]

/-- The always-denying permission gate used by the counterexamples. -/
def denyCfg : Cfg :=
  { requireUser := true, userId := some "u",
    checkPermission := fun _ _ _ _ => false }

def noFailOracle : Nat → Bool := fun _ => false

def emptyWorld : World := { store := fun _ => [] }

/-- The state after `start` followed by a permission-denied `insert`:
rollback flag set, reason `permission-denied`, ledger and stack empty. -/
def c6state : TxState :=
  (txInsert denyCfg noFailOracle (txStart denyCfg {} emptyWorld "t").1
    (txStart denyCfg {} emptyWorld "t").2.1 "posts" [("x", Value.vInt 1)] {}).s

def c6world : World :=
  (txInsert denyCfg noFailOracle (txStart denyCfg {} emptyWorld "t").1
    (txStart denyCfg {} emptyWorld "t").2.1 "posts" [("x", Value.vInt 1)] {}).w

/-- C6 counterexample: a reachable transaction with the rollback flag set
(permission-denied) whose ledger and stack are empty.  Its commit takes
the empty-transaction branch first: the callback receives no error and a
`true` result -- the recorded rollback reason is not reported and
rollback is not invoked. -/
theorem C6_cx :
    c6state.rollback = true ∧
    c6state.rollbackReason = "permission-denied" ∧
    (txCommit denyCfg noFailOracle c6state c6world .noArg none).err = none ∧
    (txCommit denyCfg noFailOracle c6state c6world .noArg none).res = .rTrue ∧
    (txCommit denyCfg noFailOracle c6state c6world .noArg none).err ≠
      some "permission-denied" := by
  refine ⟨rfl, rfl, rfl, rfl, ?_⟩
  rw [show (txCommit denyCfg noFailOracle c6state c6world .noArg none).err =
      none from rfl]
  simp

/-- C6 amended: for a transaction whose rollback flag is set at commit
time and whose item ledger or execution stack is non-empty, commit
executes none of the queued thunks -- it invokes rollback (which touches
only instant items, so with no instant item the store is unchanged) and
reports the recorded rollback reason via the callback.  (A
rollback-flagged transaction whose ledger and stack are both empty is
instead discarded silently by the earlier empty-transaction branch, with
a success report.) -/
theorem C6_commit_rollback (cfg : Cfg) (fails : Nat → Bool) (s : TxState)
    (w : World) (txid : TxIdArg) (newIdParam : Option ResVal) (tid : String)
    (hu : (cfg.requireUser && cfg.userId.isNone) = false)
    (htid : s.transaction_id = some tid)
    (hstray : isStray txid tid = false)
    (hsa : (decide (s.startAttempts > 0) && !(matchesOrNull txid tid)) = false)
    (hne : (itemsEmpty s.items && s.executionStack.isEmpty) = false)
    (hrb : s.rollback = true) :
    txCommit cfg fails s w txid newIdParam =
      { s := (txRollback fails s w).1, w := (txRollback fails s w).2.1,
        err := some s.rollbackReason, res := .rFalse, ret := .undef } ∧
    (s.items.removed.all (fun o => !o.instant) = true →
     s.items.updated.all (fun o => !o.instant) = true →
     s.items.inserted.all (fun o => !o.instant) = true →
      (txCommit cfg fails s w txid newIdParam).w.store = w.store) := by
  have hmain : txCommit cfg fails s w txid newIdParam =
      { s := (txRollback fails s w).1, w := (txRollback fails s w).2.1,
        err := some s.rollbackReason, res := .rFalse, ret := .undef } := by
    simp [txCommit, hu, htid, hstray, hsa, hne, hrb]
  refine ⟨hmain, ?_⟩
  intro h1 h2 h3
  rw [hmain]
  exact txRollback_store_noInstant fails s w h1 h2 h3

/-- Witness for C6's amended theorem: the denied-insert state above with
one queued remove on the stack: commit reports `permission-denied`, the
result is `false`, and no queued action ran (the store is untouched). -/
def c6state2 : TxState :=
  { c6state with executionStack := [.sRemove "posts" "z" { _id := "z" } {}] }

theorem C6_commit_rollback_witness :
    (txCommit denyCfg noFailOracle c6state2 c6world .noArg none).err =
      some "permission-denied" ∧
    (txCommit denyCfg noFailOracle c6state2 c6world .noArg none).res = .rFalse ∧
    (txCommit denyCfg noFailOracle c6state2 c6world .noArg none).w.store =
      c6world.store := by
  have h := C6_commit_rollback denyCfg noFailOracle c6state2 c6world .noArg none
    "tx0" rfl rfl rfl rfl rfl rfl
  refine ⟨?_, ?_, h.2 rfl rfl rfl⟩
  · rw [h.1]; rfl
  · rw [h.1]

def docArgId : DocArg → String
  | .byId i => i
  | .byDoc d => docIdStr d

def c7store : Store :=
  fun c => if c = "posts" then [[("_id", Value.vStr "x")]] else []

/-- The call sequence of the counterexample: `start`, then a hard-delete
`remove` denied by the permission gate. -/
def c7call : CallRes :=
  txRemove denyCfg noFailOracle (txStart denyCfg {} { store := c7store } "t").1
    (txStart denyCfg {} { store := c7store } "t").2.1 "posts" (.byId "x") {}

/-- C7 counterexample: the denied remove never throws, flags rollback with
`permission-denied` and returns falsy, and the document survives -- but
the eventual commit of this otherwise-empty transaction reports no error
and a `true` result instead of the original reason (the empty-transaction
branch runs first). -/
theorem C7_cx :
    c7call.s.rollback = true ∧
    c7call.s.rollbackReason = "permission-denied" ∧
    c7call.ret = .undef ∧
    c7call.w.store "posts" = [[("_id", Value.vStr "x")]] ∧
    (txCommit denyCfg noFailOracle c7call.s c7call.w .noArg none).err = none ∧
    (txCommit denyCfg noFailOracle c7call.s c7call.w .noArg none).err ≠
      some "permission-denied" ∧
    (txCommit denyCfg noFailOracle c7call.s c7call.w .noArg none).res = .rTrue := by
  refine ⟨rfl, rfl, rfl, rfl, rfl, ?_, rfl⟩
  rw [show (txCommit denyCfg noFailOracle c7call.s c7call.w .noArg none).err =
      none from rfl]
  simp

/-- C7 amended: a denied (non-overridden) insert/update/remove never
throws -- it sets the rollback flag with reason `permission-denied` and
returns falsy, mutating nothing; every later insert/update/remove in the
same transaction is a no-op; and the eventual commit reports the original
reason provided the transaction has at least one recorded or queued
action (an otherwise-empty transaction is instead discarded silently with
a success report). -/
theorem C7_permission_denied (cfg : Cfg) (fails : Nat → Bool) (s : TxState)
    (w : World) (hu : (cfg.requireUser && cfg.userId.isNone) = false) :
    (∀ coll newDoc opt, s.rollback = false →
      opt.overridePermissionCheck = false →
      cfg.checkPermission "insert" coll (some newDoc) [] = false →
      txInsert cfg fails s w coll newDoc opt =
        { s := { s with rollback := true, rollbackReason := "permission-denied" },
          w := w, ret := .undef }) ∧
    (∀ coll docArg updates opt, s.rollback = false →
      opt.overridePermissionCheck = false →
      cfg.checkPermission "update" coll
        (findOneSel w.store coll { _id := docArgId docArg }) updates = false →
      txUpdate cfg fails s w coll docArg updates opt =
        { s := { s with rollback := true, rollbackReason := "permission-denied" },
          w := w, ret := .undef }) ∧
    (∀ coll docArg opt, s.rollback = false →
      opt.overridePermissionCheck = false →
      cfg.checkPermission "remove" coll
        (match docArg with
         | .byId i => findOneSel w.store coll { _id := i }
         | .byDoc d => some d) [] = false →
      txRemove cfg fails s w coll docArg opt =
        { s := { s with rollback := true, rollbackReason := "permission-denied" },
          w := w, ret := .undef }) ∧
    (s.rollback = true →
      (∀ coll newDoc opt, txInsert cfg fails s w coll newDoc opt =
        { s := s, w := w, ret := .undef }) ∧
      (∀ coll docArg updates opt, txUpdate cfg fails s w coll docArg updates opt =
        { s := s, w := w, ret := .undef }) ∧
      (∀ coll docArg opt, txRemove cfg fails s w coll docArg opt =
        { s := s, w := w, ret := .undef })) ∧
    (∀ tid, s.rollback = true → s.transaction_id = some tid →
      (itemsEmpty s.items && s.executionStack.isEmpty) = false →
      s.startAttempts = 0 →
      (txCommit cfg fails s w .noArg none).err = some s.rollbackReason ∧
      (txCommit cfg fails s w .noArg none).res = .rFalse) := by
  refine ⟨?_, ?_, ?_, ?_, ?_⟩
  · intro coll newDoc opt hrb hov hperm
    simp [txInsert, hrb, hu, hov, hperm]
  · intro coll docArg updates opt hrb hov hperm
    cases docArg with
    | byId i => simp [txUpdate, hrb, hu, hov, docArgId] at hperm ⊢; simp [hperm]
    | byDoc d => simp [txUpdate, hrb, hu, hov, docArgId] at hperm ⊢; simp [hperm]
  · intro coll docArg opt hrb hov hperm
    cases docArg with
    | byId i => simp [txRemove, hrb, hu, hov] at hperm ⊢; simp [hperm]
    | byDoc d => simp [txRemove, hrb, hu, hov] at hperm ⊢; simp [hperm]
  · intro hrb
    refine ⟨?_, ?_, ?_⟩ <;> intro coll docArg opt
    · simp [txInsert, hrb]
    · simp [txUpdate, hrb]
    · simp [txRemove, hrb]
  · intro tid hrb htid hne hsa
    constructor <;> simp [txCommit, hu, htid, hne, hrb, hsa, isStray]

def c7s1 : TxState := { transaction_id := some "t1" }

def c7s2 : TxState :=
  { transaction_id := some "t1", rollback := true,
    rollbackReason := "permission-denied",
    executionStack := [.sRemove "posts" "z" { _id := "z" } {}] }

/-- Witness for C7's amended theorem: a denied insert inside an open
transaction flags rollback and returns falsy; committing a
rollback-flagged transaction with a queued action reports
`permission-denied`. -/
theorem C7_permission_denied_witness :
    (txInsert denyCfg noFailOracle c7s1 emptyWorld "posts"
      [("a", Value.vInt 1)] {}).s.rollback = true ∧
    (txInsert denyCfg noFailOracle c7s1 emptyWorld "posts"
      [("a", Value.vInt 1)] {}).ret = .undef ∧
    (txCommit denyCfg noFailOracle c7s2 emptyWorld .noArg none).err =
      some "permission-denied" := by
  have h := C7_permission_denied denyCfg noFailOracle c7s1 emptyWorld rfl
  have ha := h.1 "posts" [("a", Value.vInt 1)] {} rfl rfl rfl
  have h2 := C7_permission_denied denyCfg noFailOracle c7s2 emptyWorld rfl
  have he := h2.2.2.2.2 "t1" rfl rfl rfl rfl
  exact ⟨by rw [ha], by rw [ha], he.1⟩

/-! ## C5: commit drains the stack FIFO and classifies the new ids -/

/-- The reference executor: run every queued thunk unconditionally, first
queued first, threading the world/state and collecting string results in
order. -/
def runStackFIFO (cfg : Cfg) (tid : String) :
    List StackAction → World → TxState → List String →
    World × TxState × List String
  | [], w, s, ids => (w, s, ids)
  | a :: rest, w, s, ids =>
    let r := runThunk cfg tid a { w with opCtr := w.opCtr + 1 } s
    runStackFIFO cfg tid rest r.1 r.2.1
      (ids ++ (match r.2.2 with | some i => [i] | none => []))

/-- When no thunk throws, the drain does not abort and equals the
sequential first-to-last executor. -/
theorem drainStack_noFail (cfg : Cfg) (fails : Nat → Bool) (tid : String)
    (hf : ∀ n, fails n = false) :
    (l : List StackAction) → (w : World) → (s : TxState) → (ids : List String) →
    drainStack cfg fails tid l w s ids =
      (false, (runStackFIFO cfg tid l w s ids).1,
       (runStackFIFO cfg tid l w s ids).2.1,
       (runStackFIFO cfg tid l w s ids).2.2, [])
  | [], w, s, ids => by simp [drainStack, runStackFIFO]
  | a :: rest, w, s, ids => by
    have ih := drainStack_noFail cfg fails tid hf rest
      (runThunk cfg tid a { w with opCtr := w.opCtr + 1 } s).1
      (runThunk cfg tid a { w with opCtr := w.opCtr + 1 } s).2.1
      (ids ++ (match (runThunk cfg tid a { w with opCtr := w.opCtr + 1 } s).2.2 with
               | some i => [i] | none => []))
    simp only [drainStack, runStackFIFO, hf, Bool.false_eq_true, if_neg, ite_false]
    exact ih

/-- C5: for an open transaction with a non-empty execution stack, no
rollback flag and no thunk failure, commit executes the queued thunks
strictly in FIFO order (it equals the sequential first-to-last executor),
persists the resulting ledger onto the record, and reports as its result
the single collected insert id as a scalar, the id list when several were
collected, and `true` when none was. -/
theorem C5_commit_fifo (cfg : Cfg) (fails : Nat → Bool) (s : TxState)
    (w : World) (tid : String)
    (hu : (cfg.requireUser && cfg.userId.isNone) = false)
    (htid : s.transaction_id = some tid)
    (hsa : s.startAttempts = 0)
    (hne : s.executionStack.isEmpty = false)
    (hrb : s.rollback = false)
    (hf : ∀ n, fails n = false) :
    txCommit cfg fails s w .noArg none =
      { s := cleanResetState,
        w := { (runStackFIFO cfg tid s.executionStack w s []).1 with
               txrecs := (runStackFIFO cfg tid s.executionStack w s []).1.txrecs.map
                 (fun r => if r.id == tid
                  then { r with
                         context := (runStackFIFO cfg tid s.executionStack w s []).2.1.context,
                         items := some (runStackFIFO cfg tid s.executionStack w s []).2.1.items }
                  else r) },
        err := none,
        res := (match (runStackFIFO cfg tid s.executionStack w s []).2.2 with
                | [] => .rTrue
                | [i] => .rId i
                | l => .rIds l),
        ret := .bool true } := by
  have hd := drainStack_noFail cfg fails tid hf s.executionStack w s []
  simp only [txCommit, hu, htid, hsa, hne, hrb, isStray, matchesOrNull, hd]
  norm_num
  cases hids : (runStackFIFO cfg tid s.executionStack w s []).2.2 with
  | nil => simp
  | cons i rest =>
    cases rest with
    | nil => simp
    | cons j rest2 => simp

def c5s : TxState :=
  { transaction_id := some "t1",
    executionStack := [.sInsert "posts" [("n", Value.vInt 1)] {},
                       .sInsert "posts" [("n", Value.vInt 2)] {}] }

/-- Witness for C5: two queued inserts are executed first-queued first
(ids drawn in order) and the result is the sequence of both new ids. -/
theorem C5_commit_fifo_witness :
    (txCommit c2cfg noFailOracle c5s emptyWorld .noArg none).res =
      .rIds ["id0", "id1"] ∧
    ((txCommit c2cfg noFailOracle c5s emptyWorld .noArg none).w.store "posts").map
      docIdStr = ["id0", "id1"] ∧
    (txCommit c2cfg noFailOracle c5s emptyWorld .noArg none).err = none := by
  have h := C5_commit_fifo c2cfg noFailOracle c5s emptyWorld "t1" rfl rfl rfl
    rfl rfl (fun n => rfl)
  refine ⟨?_, ?_, ?_⟩ <;> rw [h] <;> rfl

/-! ## C8: committing an empty transaction persists no record -/

/-- C8: for a commit of an open transaction whose item ledger and
execution stack are both empty, no persisted transaction record with that
transaction's id exists after the commit (the record `start` created is
removed and none is written); the transaction is discarded silently (no
callback error, result `true`) and the state reset. -/
theorem C8_commit_empty (cfg : Cfg) (fails : Nat → Bool) (s : TxState)
    (w : World) (tid : String)
    (hu : (cfg.requireUser && cfg.userId.isNone) = false)
    (htid : s.transaction_id = some tid)
    (hsa : s.startAttempts = 0)
    (hempty : itemsEmpty s.items = true)
    (hstack : s.executionStack = []) :
    (∀ r, r ∈ (txCommit cfg fails s w .noArg none).w.txrecs → r.id ≠ tid) ∧
    (txCommit cfg fails s w .noArg none).s = cleanResetState ∧
    (txCommit cfg fails s w .noArg none).err = none ∧
    (txCommit cfg fails s w .noArg none).res = .rTrue := by
  have hred : txCommit cfg fails s w .noArg none =
      { s := cleanResetState,
        w := { w with txrecs := w.txrecs.filter (fun r => r.id != tid) },
        err := none, res := .rTrue, ret := .bool true } := by
    simp [txCommit, hu, htid, hsa, hempty, hstack, isStray, matchesOrNull]
  rw [hred]
  refine ⟨?_, rfl, rfl, rfl⟩
  intro r hr
  have := (List.mem_filter.mp hr).2
  simpa using this

/-- Witness for C8: `start` persists a fresh record; the immediate empty
commit removes it, reports no error and `true`. -/
theorem C8_commit_empty_witness :
    (txStart c2cfg {} emptyWorld "t").2.1.txrecs.map TxRecord.id = ["tx0"] ∧
    (txCommit c2cfg noFailOracle (txStart c2cfg {} emptyWorld "t").1
      (txStart c2cfg {} emptyWorld "t").2.1 .noArg none).w.txrecs = [] ∧
    (txCommit c2cfg noFailOracle (txStart c2cfg {} emptyWorld "t").1
      (txStart c2cfg {} emptyWorld "t").2.1 .noArg none).err = none ∧
    (txCommit c2cfg noFailOracle (txStart c2cfg {} emptyWorld "t").1
      (txStart c2cfg {} emptyWorld "t").2.1 .noArg none).res = .rTrue := by
  have h := C8_commit_empty c2cfg noFailOracle (txStart c2cfg {} emptyWorld "t").1
    (txStart c2cfg {} emptyWorld "t").2.1 "tx0" rfl rfl rfl rfl rfl
  exact ⟨rfl, rfl, h.2.2.1, h.2.2.2⟩

/-! ## C9: the items/stack vs open-transaction invariant over all
reachable states -/

/-- One lifecycle operation issued by application code. -/
inductive TxOp where
  | opStart (desc : String)
  | opInsert (coll : String) (newDoc : Doc) (opt : Opts)
  | opUpdate (coll : String) (docArg : DocArg) (updates : Modifier) (opt : Opts)
  | opRemove (coll : String) (docArg : DocArg) (opt : Opts)
  | opCancel
  | opCommit (txid : TxIdArg) (newIdParam : Option ResVal)
  | opRollback

/-- The state transition of one operation on the in-flight state and the
world. -/
def stepOp (cfg : Cfg) (fails : Nat → Bool) (sw : TxState × World)
    (op : TxOp) : TxState × World :=
  match op with
  | .opStart desc =>
    let r := txStart cfg sw.1 sw.2 desc
    (r.1, r.2.1)
  | .opInsert coll nd opt =>
    let r := txInsert cfg fails sw.1 sw.2 coll nd opt
    (r.s, r.w)
  | .opUpdate coll da u opt =>
    let r := txUpdate cfg fails sw.1 sw.2 coll da u opt
    (r.s, r.w)
  | .opRemove coll da opt =>
    let r := txRemove cfg fails sw.1 sw.2 coll da opt
    (r.s, r.w)
  | .opCancel => (txCancel sw.1, sw.2)
  | .opCommit txid nip =>
    let r := txCommit cfg fails sw.1 sw.2 txid nip
    (r.s, r.w)
  | .opRollback =>
    let r := txRollback fails sw.1 sw.2
    (r.1, r.2.1)

/-- Run a sequence of lifecycle operations from a given state. -/
def runOps (cfg : Cfg) (fails : Nat → Bool) (sw : TxState × World)
    (ops : List TxOp) : TxState × World :=
  ops.foldl (stepOp cfg fails) sw

/-- C9 counterexample: after `start()` alone (a reachable state), the item
ledger and the execution stack are both empty although a transaction is
logically open -- the claimed "iff" fails in the only-if direction. -/
theorem C9_cx :
    (itemsEmpty (runOps c2cfg noFailOracle (cleanResetState, emptyWorld)
        [.opStart "t"]).1.items &&
      (runOps c2cfg noFailOracle (cleanResetState, emptyWorld)
        [.opStart "t"]).1.executionStack.isEmpty) = true ∧
    (runOps c2cfg noFailOracle (cleanResetState, emptyWorld)
      [.opStart "t"]).1.transaction_id ≠ none := by
  refine ⟨rfl, ?_⟩
  rw [show (runOps c2cfg noFailOracle (cleanResetState, emptyWorld)
      [.opStart "t"]).1.transaction_id = some "tx0" from rfl]
  simp

/-- The (amended) invariant: whenever no transaction is logically open,
the item ledger and the execution stack are empty. -/
def openInv (s : TxState) : Prop :=
  s.transaction_id = none → (itemsEmpty s.items = true ∧ s.executionStack = [])

theorem openInv_cleanReset : openInv cleanResetState :=
  fun _ => ⟨rfl, rfl⟩

theorem openInv_of_some (s : TxState) (h : s.transaction_id.isSome = true) :
    openInv s := by
  intro h0
  rw [h0] at h
  cases h

theorem commit_openInv (cfg : Cfg) (fails : Nat → Bool) (s : TxState)
    (w : World) (a : TxIdArg) (n : Option ResVal) (h : openInv s) :
    openInv (txCommit cfg fails s w a n).s := by
  by_cases hu : (cfg.requireUser && cfg.userId.isNone) = true
  · simpa [txCommit, hu] using h
  · have hu2 : (cfg.requireUser && cfg.userId.isNone) = false := by
      cases hc : (cfg.requireUser && cfg.userId.isNone)
      · rfl
      · exact absurd hc hu
    cases hid : s.transaction_id with
    | none =>
      simp only [txCommit, hu2, Bool.false_eq_true, if_neg, ite_false, hid]
      exact openInv_cleanReset
    | some tid =>
      have hsome : ∀ s2 : TxState, s2.transaction_id = some tid → openInv s2 :=
        fun s2 h2 => openInv_of_some s2 (by simp [h2])
      simp only [txCommit, hu2, Bool.false_eq_true, if_neg, ite_false, hid]
      split
      · exact hsome _ rfl
      split
      · exact hsome _ rfl
      split
      · exact openInv_cleanReset
      split
      · exact openInv_cleanReset
      split
      · exact openInv_cleanReset
      · exact openInv_cleanReset

theorem closeAuto_openInv (cfg : Cfg) (fails : Nat → Bool) (s : TxState)
    (w : World) (n : Option ResVal) (h : openInv s) :
    openInv (closeAutoTransaction cfg fails s w n).1 := by
  unfold closeAutoTransaction
  split
  · exact commit_openInv cfg fails s w .objArg n h
  · exact h

theorem openAuto_isSome (cfg : Cfg) (s : TxState) (w : World) (d : String)
    (hu : (cfg.requireUser && cfg.userId.isNone) = false) :
    (openAutoTransaction cfg s w d).1.transaction_id.isSome = true := by
  unfold openAutoTransaction
  cases hid : s.transaction_id with
  | none => simp [txStart, hu, hid]
  | some t => simp [hid]

theorem start_openInv (cfg : Cfg) (s : TxState) (w : World) (d : String) :
    openInv (txStart cfg s w d).1 := by
  unfold txStart
  split
  · exact openInv_cleanReset
  · cases hid : s.transaction_id with
    | none =>
      simp only [hid]
      exact openInv_of_some _ (by simp)
    | some t =>
      simp only [hid]
      exact openInv_of_some _ (by simp [hid])

theorem cancel_openInv (s : TxState) (h : openInv s) : openInv (txCancel s) := by
  intro h0
  simp only [txCancel] at h0 ⊢
  exact h h0

theorem rollback_openInv (fails : Nat → Bool) (s : TxState) (w : World) :
    openInv (txRollback fails s w).1 :=
  openInv_cleanReset

theorem foldl_pres_tid {β : Type} (step : TxState × World → β → TxState × World)
    (hstep : ∀ acc b, (step acc b).1.transaction_id = acc.1.transaction_id) :
    (l : List β) → (acc : TxState × World) →
    (l.foldl step acc).1.transaction_id = acc.1.transaction_id
  | [], _ => rfl
  | b :: rest, acc => by
    rw [List.foldl_cons, foldl_pres_tid step hstep rest (step acc b), hstep]

theorem txUpdateLoop_id (cfg : Cfg) (fails : Nat → Bool) (tid coll i : String)
    (ed : Option Doc) (updates : Modifier) (opt : Opts) (s : TxState) (w : World) :
    (txUpdateLoop cfg fails tid coll i ed updates opt s w).1.transaction_id =
      s.transaction_id := by
  unfold txUpdateLoop
  refine foldl_pres_tid _ ?_ updates (s, w)
  intro acc p
  simp only []
  split
  · split
    · simp
    · simp [makeUpdateF, pushUpdated]
  · simp

theorem insert_openInv (cfg : Cfg) (fails : Nat → Bool) (s : TxState)
    (w : World) (coll : String) (nd : Doc) (opt : Opts) (h : openInv s) :
    openInv (txInsert cfg fails s w coll nd opt).s := by
  unfold txInsert
  split
  · exact h
  · rename_i hguard
    have hu2 : (cfg.requireUser && cfg.userId.isNone) = false := by
      cases hc : (cfg.requireUser && cfg.userId.isNone)
      · rfl
      · exact absurd (by simp [hc]) hguard
    split
    · dsimp only
      split
      · split
        · refine closeAuto_openInv _ _ _ _ _ (openInv_of_some _ ?_)
          simpa using openAuto_isSome cfg s w ("add " ++ coll.dropRight 1) hu2
        · refine closeAuto_openInv _ _ _ _ _ (openInv_of_some _ ?_)
          simp only [pushInserted]
          simpa using openAuto_isSome cfg s w ("add " ++ coll.dropRight 1) hu2
      · refine closeAuto_openInv _ _ _ _ _ (openInv_of_some _ ?_)
        simpa using openAuto_isSome cfg s w ("add " ++ coll.dropRight 1) hu2
    · exact h

theorem remove_openInv (cfg : Cfg) (fails : Nat → Bool) (s : TxState)
    (w : World) (coll : String) (da : DocArg) (opt : Opts) (h : openInv s) :
    openInv (txRemove cfg fails s w coll da opt).s := by
  unfold txRemove
  split
  · exact h
  · rename_i hguard
    have hu2 : (cfg.requireUser && cfg.userId.isNone) = false := by
      cases hc : (cfg.requireUser && cfg.userId.isNone)
      · rfl
      · exact absurd (by simp [hc]) hguard
    cases da with
    | byId i0 =>
      dsimp only
      split
      · refine closeAuto_openInv _ _ _ _ _ (openInv_of_some _ ?_)
        split
        · split
          · simpa using openAuto_isSome cfg s w ("remove " ++ coll.dropRight 1) hu2
          · simp only [doRemoveF]
            split
            · simp only [pushRemoved]
              simpa using openAuto_isSome cfg s w ("remove " ++ coll.dropRight 1) hu2
            · simp only [pushRemoved]
              simpa using openAuto_isSome cfg s w ("remove " ++ coll.dropRight 1) hu2
        · simpa using openAuto_isSome cfg s w ("remove " ++ coll.dropRight 1) hu2
      · exact h
    | byDoc d0 =>
      dsimp only
      split
      · refine closeAuto_openInv _ _ _ _ _ (openInv_of_some _ ?_)
        split
        · split
          · simpa using openAuto_isSome cfg s w ("remove " ++ coll.dropRight 1) hu2
          · simp only [doRemoveF]
            split
            · simp only [pushRemoved]
              simpa using openAuto_isSome cfg s w ("remove " ++ coll.dropRight 1) hu2
            · simp only [pushRemoved]
              simpa using openAuto_isSome cfg s w ("remove " ++ coll.dropRight 1) hu2
        · simpa using openAuto_isSome cfg s w ("remove " ++ coll.dropRight 1) hu2
      · exact h

theorem update_openInv (cfg : Cfg) (fails : Nat → Bool) (s : TxState)
    (w : World) (coll : String) (da : DocArg) (updates : Modifier) (opt : Opts)
    (h : openInv s) : openInv (txUpdate cfg fails s w coll da updates opt).s := by
  unfold txUpdate
  split
  · exact h
  · rename_i hguard
    have hu2 : (cfg.requireUser && cfg.userId.isNone) = false := by
      cases hc : (cfg.requireUser && cfg.userId.isNone)
      · rfl
      · exact absurd (by simp [hc]) hguard
    cases da with
    | byId i0 =>
      dsimp only
      split
      · refine closeAuto_openInv _ _ _ _ _ (openInv_of_some _ ?_)
        rw [txUpdateLoop_id]
        simpa using openAuto_isSome cfg s w ("update " ++ coll.dropRight 1) hu2
      · exact h
    | byDoc d0 =>
      dsimp only
      split
      · refine closeAuto_openInv _ _ _ _ _ (openInv_of_some _ ?_)
        rw [txUpdateLoop_id]
        simpa using openAuto_isSome cfg s w ("update " ++ coll.dropRight 1) hu2
      · exact h

theorem stepOp_openInv (cfg : Cfg) (fails : Nat → Bool) (sw : TxState × World)
    (op : TxOp) (h : openInv sw.1) : openInv (stepOp cfg fails sw op).1 := by
  cases op with
  | opStart desc => exact start_openInv cfg sw.1 sw.2 desc
  | opInsert coll nd opt => exact insert_openInv cfg fails sw.1 sw.2 coll nd opt h
  | opUpdate coll da u opt => exact update_openInv cfg fails sw.1 sw.2 coll da u opt h
  | opRemove coll da opt => exact remove_openInv cfg fails sw.1 sw.2 coll da opt h
  | opCancel => exact cancel_openInv sw.1 h
  | opCommit txid nip => exact commit_openInv cfg fails sw.1 sw.2 txid nip h
  | opRollback => exact rollback_openInv fails sw.1 sw.2

theorem runOps_openInv (cfg : Cfg) (fails : Nat → Bool) :
    (ops : List TxOp) → (sw : TxState × World) → openInv sw.1 →
    openInv (runOps cfg fails sw ops).1
  | [], _, h => h
  | op :: rest, sw, h =>
    runOps_openInv cfg fails rest (stepOp cfg fails sw op)
      (stepOp_openInv cfg fails sw op h)

/-- C9 amended: in every in-flight state reachable from the clean initial
state by any sequence of start/insert/update/remove/cancel/commit/rollback
operations, if no transaction is logically open then the item ledger and
the execution stack are both empty.  (The converse direction of the
claimed "iff" fails: a freshly started transaction is open with both
empty, see the counterexample.) -/
theorem C9_closed_implies_empty (cfg : Cfg) (fails : Nat → Bool) (w : World)
    (ops : List TxOp)
    (h : (runOps cfg fails (cleanResetState, w) ops).1.transaction_id = none) :
    itemsEmpty (runOps cfg fails (cleanResetState, w) ops).1.items = true ∧
    (runOps cfg fails (cleanResetState, w) ops).1.executionStack = [] :=
  runOps_openInv cfg fails ops (cleanResetState, w) openInv_cleanReset h

/-- Witness for C9's amended theorem: start, queue an insert, commit --
afterwards no transaction is open and ledger and stack are empty. -/
theorem C9_closed_implies_empty_witness :
    (runOps c2cfg noFailOracle (cleanResetState, emptyWorld)
      [.opStart "t", .opInsert "posts" [("a", Value.vInt 1)] {},
       .opCommit .noArg none]).1.transaction_id = none ∧
    itemsEmpty (runOps c2cfg noFailOracle (cleanResetState, emptyWorld)
      [.opStart "t", .opInsert "posts" [("a", Value.vInt 1)] {},
       .opCommit .noArg none]).1.items = true ∧
    (runOps c2cfg noFailOracle (cleanResetState, emptyWorld)
      [.opStart "t", .opInsert "posts" [("a", Value.vInt 1)] {},
       .opCommit .noArg none]).1.executionStack = [] := by
  have h := C9_closed_implies_empty c2cfg noFailOracle emptyWorld
    [.opStart "t", .opInsert "posts" [("a", Value.vInt 1)] {},
     .opCommit .noArg none] rfl
  exact ⟨rfl, h.1, h.2⟩
